import Mathlib

/-!
A shallow embedding of the mathematical-pattern-predictor core, translated
from `src/utils/sequenceUtils.ts` and `src/utils/dummyPredictor.ts`.

JavaScript numbers are modelled as exact real numbers extended with the IEEE
special values NaN and positive/negative infinity (float rounding is
idealised away, matching the specification's real-number reading, but the
special-value propagation of JS arithmetic is preserved, since the code
relies on it: the NaN sentinel of `getSequenceRatios`, `Math.sqrt` of a
negative number, `Math.log` of a non-positive number, and the out-of-bounds
array reads that yield `undefined` and hence NaN under arithmetic).

String-valued parts of the original (rule descriptions, formula strings,
operation strings such as `add:3`) are modelled by inductive tags carrying
the interpolated numeric payloads; two such strings are equal in JS exactly
when the corresponding tags are equal, because all interpolated payloads at
comparison sites are finite numbers, which JS prints injectively.

The `while` loop of the consecutive-even/odd branch of `predictSequence` is
modelled with an explicit fuel parameter: `predictSequence fuel s = some r`
means the original returns `r` (for sufficiently large fuel), and
`predictSequence fuel s = none` for every fuel means the original diverges.
No other part of the translation consumes fuel.
-/

open scoped Classical

noncomputable section

namespace SeqPredict

/-- A JavaScript number: a finite real, an infinity, or NaN. -/
inductive JS where
  | fin (x : ℝ)
  | posInf
  | negInf
  | nan

namespace JS

/-- JS addition (`+`). -/
def add : JS → JS → JS
  | fin a, fin b => fin (a + b)
  | fin _, posInf => posInf
  | fin _, negInf => negInf
  | posInf, fin _ => posInf
  | negInf, fin _ => negInf
  | posInf, posInf => posInf
  | negInf, negInf => negInf
  | _, _ => nan

/-- JS negation (`-x`). -/
def neg : JS → JS
  | fin a => fin (-a)
  | posInf => negInf
  | negInf => posInf
  | nan => nan

/-- JS subtraction (`a - b`). -/
def sub (a b : JS) : JS := add a (neg b)

/-- JS multiplication (`*`). -/
def mul : JS → JS → JS
  | fin a, fin b => fin (a * b)
  | fin a, posInf => if a = 0 then nan else if 0 < a then posInf else negInf
  | fin a, negInf => if a = 0 then nan else if 0 < a then negInf else posInf
  | posInf, fin b => if b = 0 then nan else if 0 < b then posInf else negInf
  | negInf, fin b => if b = 0 then nan else if 0 < b then negInf else posInf
  | posInf, posInf => posInf
  | posInf, negInf => negInf
  | negInf, posInf => negInf
  | negInf, negInf => posInf
  | _, _ => nan

/-- JS division (`/`); division by (positive) zero yields a signed infinity,
`0/0` yields NaN. -/
def div : JS → JS → JS
  | fin a, fin b =>
      if b = 0 then (if a = 0 then nan else if 0 < a then posInf else negInf)
      else fin (a / b)
  | fin _, posInf => fin 0
  | fin _, negInf => fin 0
  | posInf, fin b => if 0 ≤ b then posInf else negInf
  | negInf, fin b => if 0 ≤ b then negInf else posInf
  | _, _ => nan

/-- `Math.abs`. -/
def abs : JS → JS
  | fin a => fin |a|
  | nan => nan
  | _ => posInf

/-- `Math.round`: round half toward positive infinity. -/
def round : JS → JS
  | fin a => fin ((⌊a + 1/2⌋ : ℤ) : ℝ)
  | posInf => posInf
  | negInf => negInf
  | nan => nan

/-- `Math.sqrt`: NaN on negative arguments. -/
def sqrt : JS → JS
  | fin a => if a < 0 then nan else fin (Real.sqrt a)
  | posInf => posInf
  | _ => nan

/-- Real cube root (odd extension of the 1/3 power). -/
def realCbrt (x : ℝ) : ℝ :=
  if x < 0 then -((-x) ^ ((1 : ℝ)/3)) else x ^ ((1 : ℝ)/3)

/-- `Math.cbrt`: defined on all of ℝ, odd. -/
def cbrt : JS → JS
  | fin a => fin (realCbrt a)
  | posInf => posInf
  | negInf => negInf
  | nan => nan

/-- `Math.log`: NaN on negatives, `-∞` at zero. -/
def log : JS → JS
  | fin a => if a < 0 then nan else if a = 0 then negInf else fin (Real.log a)
  | posInf => posInf
  | _ => nan

/-- `Math.pow` restricted to integer exponents (the only exponents the
program uses); `x ^ 0 = 1` for every `x` including NaN, and `0 ^ n` for
negative `n` is `+∞`, as in JS. -/
def powInt (x : JS) (n : ℤ) : JS :=
  if n = 0 then fin 1
  else match x with
  | fin a => if a = 0 ∧ n < 0 then posInf else fin (a ^ n)
  | posInf => if 0 < n then posInf else fin 0
  | negInf => if 0 < n then (if 2 ∣ n then posInf else negInf) else fin 0
  | nan => nan

/-- JS `<` comparison: false whenever NaN is involved. -/
def lt : JS → JS → Prop
  | fin a, fin b => a < b
  | fin _, posInf => True
  | negInf, fin _ => True
  | negInf, posInf => True
  | _, _ => False

/-- JS `x % 2 === 0`: `x` is an even integer (for finite `x`; always false
for NaN and infinities, whose `% 2` is NaN). -/
def isEvenNum : JS → Prop
  | fin a => ∃ n : ℤ, a = 2 * n
  | _ => False

/-- JS `isNaN`. -/
def isNaNB : JS → Bool
  | nan => true
  | _ => false

/-- JS `isFinite`. -/
def isFiniteB : JS → Bool
  | fin _ => true
  | _ => false

@[simp] theorem add_fin_fin (a b : ℝ) : add (fin a) (fin b) = fin (a + b) := rfl
@[simp] theorem neg_fin (a : ℝ) : neg (fin a) = fin (-a) := rfl
@[simp] theorem sub_fin_fin (a b : ℝ) : sub (fin a) (fin b) = fin (a + -b) := rfl
@[simp] theorem mul_fin_fin (a b : ℝ) : mul (fin a) (fin b) = fin (a * b) := rfl
@[simp] theorem abs_fin (a : ℝ) : abs (fin a) = fin |a| := rfl
@[simp] theorem round_fin (a : ℝ) : round (fin a) = fin ((⌊a + 1/2⌋ : ℤ) : ℝ) := rfl
@[simp] theorem lt_fin_fin (a b : ℝ) : lt (fin a) (fin b) ↔ a < b := Iff.rfl

@[simp] theorem add_nan_left (x : JS) : add nan x = nan := by cases x <;> rfl
@[simp] theorem add_nan_right (x : JS) : add x nan = nan := by cases x <;> rfl
@[simp] theorem sub_nan_right (x : JS) : sub x nan = nan := by cases x <;> rfl
@[simp] theorem sub_nan_left (x : JS) : sub nan x = nan := by cases x <;> rfl
@[simp] theorem abs_nan : abs nan = nan := rfl
@[simp] theorem round_nan : round nan = nan := rfl
@[simp] theorem lt_nan_left (x : JS) : ¬ lt nan x := by cases x <;> exact fun h => h
@[simp] theorem lt_nan_right (x : JS) : ¬ lt x nan := by cases x <;> exact fun h => h

@[simp] theorem fin_inj (a b : ℝ) : (fin a = fin b) ↔ a = b := by
  constructor
  · intro h; cases h; rfl
  · intro h; rw [h]

theorem div_fin_fin (a b : ℝ) (hb : b ≠ 0) : div (fin a) (fin b) = fin (a / b) := by
  simp [div, hb]

@[simp] theorem isEvenNum_fin (a : ℝ) : isEvenNum (fin a) ↔ ∃ n : ℤ, a = 2 * n := Iff.rfl

end JS

/-- The global numeric tolerance (`0.0001`) used by every comparison. -/
def tol : ℝ := 1/10000

/-- `sequence[i]` for a natural index: out-of-range reads give `undefined`,
which behaves as NaN in every arithmetic/comparison context of this program. -/
def sGet (l : List JS) (n : ℕ) : JS := l.getD n JS.nan

/-- `sequence[i]` for a possibly negative index (used by the delay+constant
check, which reads `sequence[idx - 1]` at `idx = 0`). -/
def sIdx (l : List JS) (i : ℤ) : JS := if i < 0 then JS.nan else sGet l i.toNat

/-- `getSequenceDifferences`: `sequence[i] - sequence[i-1]` for `i = 1..n-1`. -/
def diffsJS (l : List JS) : List JS := List.zipWith JS.sub (l.drop 1) l

/-- `getSequenceRatios`: `sequence[i] / sequence[i-1]`, with the NaN sentinel
when the denominator is `0`. -/
def ratiosJS (l : List JS) : List JS :=
  List.zipWith (fun cur prev => if prev = JS.fin 0 then JS.nan else JS.div cur prev)
    (l.drop 1) l

/-- Elements at even 0-based positions (`filter((_, i) => i % 2 === 0)`),
called "odd positions" (1-based) in the original. -/
def atEvenIdx {α : Type} : List α → List α
  | [] => []
  | [a] => [a]
  | a :: _ :: t => a :: atEvenIdx t

/-- Elements at odd 0-based positions (`filter((_, i) => i % 2 === 1)`). -/
def atOddIdx {α : Type} : List α → List α
  | [] => []
  | [_] => []
  | _ :: b :: t => b :: atOddIdx t

/-- `areAllValuesEqual` with the default tolerance: vacuously true for
length ≤ 1, otherwise every element is within `tol` of the first (the JS
`every` also tests the first element against itself, which fails when it is
NaN). -/
def areAllValuesEqual (l : List JS) : Prop :=
  if l.length ≤ 1 then True
  else ∀ x ∈ l, JS.lt (JS.abs (JS.sub x (sGet l 0))) (JS.fin tol)

/-- `checkArithmeticSequence`. -/
def checkArithmeticSequence (l : List JS) : Prop :=
  3 ≤ l.length ∧
    ∀ d ∈ diffsJS l, JS.lt (JS.abs (JS.sub d (sGet (diffsJS l) 0))) (JS.fin tol)

/-- `checkGeometricSequence`. -/
def checkGeometricSequence (l : List JS) : Prop :=
  3 ≤ l.length ∧ sGet (ratiosJS l) 0 ≠ JS.nan ∧
    ∀ r ∈ ratiosJS l,
      r ≠ JS.nan ∧ JS.lt (JS.abs (JS.sub r (sGet (ratiosJS l) 0))) (JS.fin tol)

/-- `checkFibonacciSequence`: no index `i ≥ 2` violates the two-predecessor
sum by more than `tol` (a NaN deviation does not count as a violation,
because the JS `>` comparison with NaN is false). -/
def checkFibonacciSequence (l : List JS) : Prop :=
  3 ≤ l.length ∧
    ∀ i, 2 ≤ i → i < l.length →
      ¬ JS.lt (JS.fin tol)
          (JS.abs (JS.sub (sGet l i) (JS.add (sGet l (i-1)) (sGet l (i-2)))))

/-- `checkSquareSequence`: no element's square root deviates from its
rounding by more than `tol` (again NaN deviations do not count). -/
def checkSquareSequence (l : List JS) : Prop :=
  3 ≤ l.length ∧
    ∀ i < l.length,
      ¬ JS.lt (JS.fin tol)
          (JS.abs (JS.sub (JS.round (JS.sqrt (sGet l i))) (JS.sqrt (sGet l i))))

/-- `checkCubeSequence`. -/
def checkCubeSequence (l : List JS) : Prop :=
  3 ≤ l.length ∧
    ∀ i < l.length,
      ¬ JS.lt (JS.fin tol)
          (JS.abs (JS.sub (JS.round (JS.cbrt (sGet l i))) (JS.cbrt (sGet l i))))

/-- The alternating-sign condition of `checkAlternatingSequence`:
differences at even positions positive and odd positions negative, or the
mirror image. -/
def altSigns (ds : List JS) : Prop :=
  (∀ i < ds.length,
      (i % 2 = 0 → JS.lt (JS.fin 0) (sGet ds i)) ∧
      (i % 2 = 1 → JS.lt (sGet ds i) (JS.fin 0))) ∨
  (∀ i < ds.length,
      (i % 2 = 0 → JS.lt (sGet ds i) (JS.fin 0)) ∧
      (i % 2 = 1 → JS.lt (JS.fin 0) (sGet ds i)))

/-- `checkAlternatingSequence`, returning `some (value1, value2)` in place
of the `[true, v1, v2]` tuple. -/
def checkAlternatingSequence (l : List JS) : Option (JS × JS) :=
  if 4 ≤ l.length then
    let oddD := diffsJS (atEvenIdx l)
    let evenD := diffsJS (atOddIdx l)
    if areAllValuesEqual oddD ∧ areAllValuesEqual evenD then
      some (sGet oddD 0, sGet evenD 0)
    else
      let ds := diffsJS l
      if 2 ≤ ds.length ∧ altSigns ds ∧ areAllValuesEqual (ds.map JS.abs) then
        some (sGet ds 0, sGet ds 1)
      else none
  else none

/-- Order tag of `checkDifferencePatterns` (the `'first-order'` /
`'second-order'` / `'third-order'` strings). -/
inductive DOrder where
  | firstOrder
  | secondOrder
  | thirdOrder

/-- `checkDifferencePatterns`. -/
def checkDifferencePatterns (l : List JS) : Option (JS × DOrder) :=
  if 4 ≤ l.length then
    let d1 := diffsJS l
    if areAllValuesEqual d1 then some (sGet d1 0, DOrder.firstOrder)
    else
      let d2 := diffsJS d1
      if areAllValuesEqual d2 then some (sGet d2 0, DOrder.secondOrder)
      else
        let d3 := diffsJS d2
        if areAllValuesEqual d3 then some (sGet d3 0, DOrder.thirdOrder)
        else none
  else none

/-- Order tag of `checkRatioPatterns`. -/
inductive ROrder where
  | firstOrder
  | secondOrder

/-- `checkRatioPatterns`. -/
def checkRatioPatterns (l : List JS) : Option (JS × ROrder) :=
  if 4 ≤ l.length then
    let r1 := ratiosJS l
    if areAllValuesEqual r1 then some (sGet r1 0, ROrder.firstOrder)
    else
      let r2 := ratiosJS (r1.filter (fun r => !(JS.isNaNB r) && JS.isFiniteB r))
      if 2 ≤ r2.length ∧ areAllValuesEqual r2 then some (sGet r2 0, ROrder.secondOrder)
      else none
  else none

/-- The per-base match of `checkPowerSequence`: every element within `tol`
of `base ^ idx`. -/
def powMatchBase (l : List JS) (b : ℕ) : Prop :=
  ∀ i < l.length,
    JS.lt (JS.abs (JS.sub (sGet l i) (JS.fin ((b : ℝ) ^ i)))) (JS.fin tol)

/-- The base-2..10 search loop of `checkPowerSequence`. -/
def powSearch (l : List JS) (b : ℕ) : Option ℕ :=
  if h : b ≤ 10 then
    if powMatchBase l b then some b else powSearch l (b + 1)
  else none
termination_by 11 - b

/-- `checkPowerSequence`. -/
def checkPowerSequence (l : List JS) : Option ℕ :=
  if 3 ≤ l.length then powSearch l 2 else none

/-- `checkAlternatingDifference`: differences alternate between two values
that differ by more than `0.01`. -/
def checkAlternatingDifference (l : List JS) : Option (JS × JS) :=
  if 4 ≤ l.length then
    let ds := diffsJS l
    let evenD := atEvenIdx ds
    let oddD := atOddIdx ds
    if areAllValuesEqual evenD ∧ areAllValuesEqual oddD ∧
        JS.lt (JS.fin (1/100)) (JS.abs (JS.sub (sGet evenD 0) (sGet oddD 0))) then
      some (sGet evenD 0, sGet oddD 0)
    else none
  else none

/-- Branch kind of `checkInterleaved` (the `'arithmetic(d=…)'` /
`'geometric(r=…)'` strings; the consumer only tests
`.includes('arithmetic')`, so the tag and payload fully determine it). -/
inductive BK where
  | arith (d : JS)
  | geom (r : JS)

/-- `checkInterleaved`. -/
def checkInterleaved (l : List JS) : Option (BK × BK) :=
  if 6 ≤ l.length then
    let odd := atEvenIdx l
    let even := atOddIdx l
    if checkArithmeticSequence odd ∧ checkArithmeticSequence even then
      some (BK.arith (JS.sub (sGet odd 1) (sGet odd 0)),
            BK.arith (JS.sub (sGet even 1) (sGet even 0)))
    else if checkGeometricSequence odd ∧ checkGeometricSequence even then
      some (BK.geom (JS.div (sGet odd 1) (sGet odd 0)),
            BK.geom (JS.div (sGet even 1) (sGet even 0)))
    else if checkArithmeticSequence odd ∧ checkGeometricSequence even then
      some (BK.arith (JS.sub (sGet odd 1) (sGet odd 0)),
            BK.geom (JS.div (sGet even 1) (sGet even 0)))
    else if checkGeometricSequence odd ∧ checkArithmeticSequence even then
      some (BK.geom (JS.div (sGet odd 1) (sGet odd 0)),
            BK.arith (JS.sub (sGet even 1) (sGet even 0)))
    else none
  else none

/-- The per-cycle-length match of `checkCyclicPattern`. -/
def cycMatch (l : List JS) (cl : ℕ) : Prop :=
  ∀ i, cl ≤ i → i < l.length →
    ¬ JS.lt (JS.fin tol) (JS.abs (JS.sub (sGet l i) (sGet l (i % cl))))

/-- The cycle-length search loop of `checkCyclicPattern` (lengths
`2 .. ⌊n/2⌋`). -/
def cycSearch (l : List JS) (cl : ℕ) : Option (List JS × ℕ) :=
  if h : cl ≤ l.length / 2 then
    if cycMatch l cl then some (l.take cl, cl) else cycSearch l (cl + 1)
  else none
termination_by l.length / 2 + 1 - cl

/-- `checkCyclicPattern`. -/
def checkCyclicPattern (l : List JS) : Option (List JS × ℕ) :=
  if 6 ≤ l.length then cycSearch l 2 else none

/-- `checkSpecificPattern7108`: both interleaved sub-sequences arithmetic
with difference 1 and a constant gap of 3. -/
def checkSpecificPattern7108 (l : List JS) : Prop :=
  6 ≤ l.length ∧
    (areAllValuesEqual (diffsJS (atEvenIdx l)) ∧
      JS.lt (JS.abs (JS.sub (sGet (diffsJS (atEvenIdx l)) 0) (JS.fin 1))) (JS.fin tol)) ∧
    (areAllValuesEqual (diffsJS (atOddIdx l)) ∧
      JS.lt (JS.abs (JS.sub (sGet (diffsJS (atOddIdx l)) 0) (JS.fin 1))) (JS.fin tol)) ∧
    ∀ i < (atOddIdx l).length,
      JS.lt (JS.abs (JS.sub (sGet (atOddIdx l) i)
        (JS.add (sGet (atEvenIdx l) i) (JS.fin 3)))) (JS.fin tol)

/-- `detectAlternatingPatternWithStep`: both sub-sequences arithmetic with a
constant gap between paired elements; returns `(oddDiff, evenDiff, step)`. -/
def detectAlternatingPatternWithStep (l : List JS) : Option (JS × JS × JS) :=
  if 4 ≤ l.length then
    let odd := atEvenIdx l
    let even := atOddIdx l
    if 2 ≤ odd.length ∧ 2 ≤ even.length then
      let oddD := diffsJS odd
      let evenD := diffsJS even
      if areAllValuesEqual oddD ∧ areAllValuesEqual evenD then
        let steps := List.zipWith JS.sub even odd
        if areAllValuesEqual steps then some (sGet oddD 0, sGet evenD 0, sGet steps 0)
        else none
      else none
    else none
  else none

/-- `generateNextAlternatingElements`. -/
def generateNextAlternatingElements (l : List JS) (oddDiff evenDiff step : JS) :
    List JS :=
  let lastIdx := l.length - 1
  let even := atOddIdx l
  if lastIdx % 2 = 0 then
    let nextEven := JS.add (sGet l lastIdx) step
    let nextOdd := JS.add (sGet l lastIdx) oddDiff
    [nextEven, nextOdd, JS.add nextOdd step]
  else
    let nextOdd := JS.add (JS.sub (sGet even (even.length - 1)) step) oddDiff
    [nextOdd, JS.add nextOdd step, JS.add nextOdd oddDiff]

/-- One per-hop operation of `detectComplexAlternatingPattern` (the
`add:…` / `multiply:…` / `power:…` strings; multiply/power payloads are the
rounded ratio resp. rounded exponent, printed as integers). -/
inductive COp where
  | addOp (v : JS)
  | mulOp (k : ℤ)
  | powOp (k : ℤ)

/-- The is-within-tolerance-of-its-rounding test
(`Math.abs(x - Math.round(x)) < 0.0001`). -/
def nearIntJS (x : JS) : Prop :=
  JS.lt (JS.abs (JS.sub x (JS.round x))) (JS.fin tol)

/-- `Math.round` of a finite JS number as an integer (only used under a
`nearIntJS` guard, which forces the argument to be finite). -/
def roundI (x : JS) : ℤ :=
  match x with
  | JS.fin a => ⌊a + 1/2⌋
  | _ => 0

/-- Classification of one hop of `detectComplexAlternatingPattern`:
multiply if the ratio rounds to an integer within tolerance, else power if
the log-quotient does, else add. -/
def hopOp (cur nxt : JS) : COp :=
  let ratio := JS.div nxt cur
  let power := JS.div (JS.log nxt) (JS.log cur)
  if nearIntJS ratio then COp.mulOp (roundI ratio)
  else if nearIntJS power then COp.powOp (roundI power)
  else COp.addOp (JS.sub nxt cur)

/-- All hop classifications, in order `i = 0 .. length-2`. -/
def hopOps (l : List JS) : List COp :=
  (List.range (l.length - 1)).map (fun i => hopOp (sGet l i) (sGet l (i+1)))

/-- `ops.every(op => op === ops[0])` (vacuously true on the empty list, as
in JS). -/
def opsConsistent (ops : List COp) : Prop :=
  ∀ o ∈ ops, o = ops.headD (COp.addOp JS.nan)

/-- Applying one operation while generating successors (the parsed-back
`add` / `multiply` / `power` application). -/
def applyOp (x : JS) (op : COp) : JS :=
  match op with
  | COp.addOp v => JS.add x v
  | COp.mulOp k => JS.mul x (JS.fin (k : ℝ))
  | COp.powOp k => JS.powInt x k

/-- The three successors generated by the complex-alternating branch:
starting from the last element, apply the odd-to-even or even-to-odd
operation according to the parity of `length + i - 1`. -/
def complexNexts (l : List JS) (oOp eOp : COp) : List JS :=
  let c1 := applyOp (sGet l (l.length - 1)) (if (l.length - 1) % 2 = 0 then oOp else eOp)
  let c2 := applyOp c1 (if l.length % 2 = 0 then oOp else eOp)
  let c3 := applyOp c2 (if (l.length + 1) % 2 = 0 then oOp else eOp)
  [c1, c2, c3]

/-- `detectComplexAlternatingPattern`. -/
def detectComplexAlternatingPattern (l : List JS) : Option (COp × COp × List JS) :=
  if 5 ≤ l.length then
    let oOps := atEvenIdx (hopOps l)
    let eOps := atOddIdx (hopOps l)
    if opsConsistent oOps ∧ opsConsistent eOps then
      let oOp := oOps.headD (COp.addOp JS.nan)
      let eOp := eOps.headD (COp.addOp JS.nan)
      some (oOp, eOp, complexNexts l oOp eOp)
    else none
  else none

/-- The per-pattern-length match of `detectAlternatingDifferencePattern`:
every later difference within `tol` of its pattern slot. -/
def diffPatternMatch (ds : List JS) (pl : ℕ) : Prop :=
  ∀ i, pl ≤ i → i < ds.length →
    ¬ JS.lt (JS.fin tol) (JS.abs (JS.sub (sGet ds i) (sGet ds (i % pl))))

/-- The three successors of the alternating-difference branch. -/
def altDiffNexts (l ds : List JS) (pl : ℕ) : List JS :=
  let c1 := JS.add (sGet l (l.length - 1)) (sGet ds (ds.length % pl))
  let c2 := JS.add c1 (sGet ds ((ds.length + 1) % pl))
  let c3 := JS.add c2 (sGet ds ((ds.length + 2) % pl))
  [c1, c2, c3]

/-- `detectAlternatingDifferencePattern`: pattern lengths 2, 3, 4 tried in
order, skipping lengths with fewer than two full periods of differences. -/
def detectAlternatingDifferencePattern (l : List JS) : Option (List JS × List JS) :=
  if 6 ≤ l.length then
    let ds := diffsJS l
    if 4 ≤ ds.length ∧ diffPatternMatch ds 2 then some (ds.take 2, altDiffNexts l ds 2)
    else if 6 ≤ ds.length ∧ diffPatternMatch ds 3 then some (ds.take 3, altDiffNexts l ds 3)
    else if 8 ≤ ds.length ∧ diffPatternMatch ds 4 then some (ds.take 4, altDiffNexts l ds 4)
    else none
  else none

/-- The `'even-first'` / `'odd-first'` tag of
`checkConsecutiveEvenOddPattern`. -/
inductive StartType where
  | evenFirst
  | oddFirst

/-- Length of the maximal prefix whose elements' JS-evenness matches `p`. -/
def parityRun (p : Prop) : List JS → ℕ
  | [] => 0
  | x :: xs => if JS.isEvenNum x ↔ p then parityRun p xs + 1 else 0

/-- The group-verification loop of `checkConsecutiveEvenOddPattern`: the
list splits into blocks of size `gs` of alternating expected JS-evenness.
(The original's group size is always ≥ 1; the size-0 case is vacuous here
because the original's loop would never reject in that case.) -/
def verifyGroups : ℕ → List JS → Prop → Prop
  | _, [], _ => True
  | 0, _ :: _, _ => True
  | gs+1, x :: xs, e =>
      (∀ y ∈ (x :: xs).take (gs+1), JS.isEvenNum y ↔ e) ∧
        verifyGroups (gs+1) ((x :: xs).drop (gs+1)) (¬ e)
termination_by _ l => l.length
decreasing_by simp [List.length_drop]; omega

/-- `checkConsecutiveEvenOddPattern`, returning `some (startType, groupSize)`. -/
def checkConsecutiveEvenOddPattern (l : List JS) : Option (StartType × ℕ) :=
  if 3 ≤ l.length then
    let isFirstEven := JS.isEvenNum (sGet l 0)
    if JS.isEvenNum (sGet l 0) ↔ JS.isEvenNum (sGet l 1) then
      let startType := if isFirstEven then StartType.evenFirst else StartType.oddFirst
      let gs := 1 + parityRun isFirstEven (l.drop 1)
      if verifyGroups gs (l.drop gs) (¬ isFirstEven) then some (startType, gs)
      else none
    else none
  else none

/-- The `while ((nextNum % 2 === 0) !== shouldBeEven) nextNum++` search,
with explicit fuel: `some` is the value the original loop returns, and
`none` at every fuel means the original loop never terminates. -/
def paritySearch (target : Prop) : ℕ → JS → Option JS
  | 0, x => if JS.isEvenNum x ↔ target then some x else none
  | f+1, x => if JS.isEvenNum x ↔ target then some x
              else paritySearch target f (JS.add x (JS.fin 1))

/-- One successor of the consecutive-even/odd branch: position in the
double group (`currentGroupPos = len % (gs*2)` advanced by `i`), expected
evenness, then the parity search starting just after the previous number. -/
def consecutiveStep (st : StartType) (gs len i : ℕ) (fuel : ℕ) (lastNum : JS) :
    Option JS :=
  let pos := (len % (gs * 2) + i) % (gs * 2)
  let shouldBeEven :=
    match st with
    | StartType.evenFirst => pos < gs
    | StartType.oddFirst => gs ≤ pos
  paritySearch shouldBeEven fuel (JS.add lastNum (JS.fin 1))

/-- The `SequenceRule` tag. -/
inductive RuleType where
  | arithmetic
  | geometric
  | fibonacci
  | square
  | cube
  | factorial
  | prime
  | alternating
  | power
  | hybrid
  | difference_pattern
  | ratio_pattern
  | unknown

/-- The formula string of a `PredictionResult`, one constructor per distinct
template in the source, carrying the interpolated numeric payloads. -/
inductive FormulaT where
  | na
  | altOpsF
  | cycleLenF (n : ℕ)
  | interleave7108F
  | interleaveStepF (o0 od e0 ed : JS)
  | arithF (a1 d : JS)
  | geomF (a1 r : JS)
  | fibF
  | squareF
  | cubeF
  | altDiffF (d1 d2 : JS)
  | twoSeqF (p1 p2 : BK)
  | oddEvenPlusF (v1 v2 : JS)
  | powF (b : ℕ)
  | repeatBlockF (pat : List JS)
  | linearF
  | quadraticF
  | cubicThirdF
  | geomRatioF
  | ratio2F
  | delayF (c : JS)
  | interleaveSameF (o0 od e0 ed : JS)
  | hybridAGF (o0 od e0 er : JS)
  | groupsF (gs : ℕ) (st : StartType)
  | lastDiffF (d : JS)

/-- `PredictionResult` (the free-text `ruleDescription` is presentational
and uniquely determined by the branch, so it is not carried separately). -/
structure PredictionResult where
  nextElements : List JS
  ruleType : RuleType
  formula : FormulaT
  confidence : ℝ

/-- The delay+constant condition computed inline in `predictSequence`
(lines 416-418): `sequence.slice(2).every((val, idx) => |…| < 0.0001)`,
where the compared expression reads `sequence[idx - 1]`, which at `idx = 0`
is `undefined` and behaves as NaN. -/
def delayPlusConstantCond (l : List JS) : Prop :=
  ∀ idx < (l.drop 2).length,
    JS.lt (JS.abs (JS.sub (JS.sub (sGet (l.drop 2) idx) (sGet l idx))
        (JS.sub (sGet l (idx + 1)) (sIdx l ((idx : ℤ) - 1)))))
      (JS.fin tol)

/-- Stage of `predictSequence` covering dummyPredictor.ts lines 414-562:
the delay+constant branch, the interleaved same-difference branch, the
hybrid arithmetic/geometric branch, the consecutive-even/odd branch (whose
parity loop consumes `fuel`), and the final fallback. -/
def predictStage3 (fuel : ℕ) (sequence : List JS) : Option PredictionResult :=
  if delayPlusConstantCond sequence ∧ 4 ≤ sequence.length then
    let constant := JS.sub (sGet sequence 2) (sGet sequence 0)
    some { nextElements := [JS.add (sGet sequence (sequence.length - 1))
               (JS.sub (sGet sequence 1) (sGet sequence 0)),
             JS.add (sGet sequence sequence.length) constant,
             JS.add (sGet sequence (sequence.length + 1)) constant],
           ruleType := RuleType.difference_pattern,
           formula := FormulaT.delayF constant, confidence := 0.9 }
  else
  if 4 ≤ sequence.length ∧
      checkArithmeticSequence (atEvenIdx sequence) ∧
      checkArithmeticSequence (atOddIdx sequence) ∧
      JS.lt (JS.abs (JS.sub
          (JS.sub (sGet (atEvenIdx sequence) 1) (sGet (atEvenIdx sequence) 0))
          (JS.sub (sGet (atOddIdx sequence) 1) (sGet (atOddIdx sequence) 0))))
        (JS.fin tol) then
    let odd := atEvenIdx sequence
    let even := atOddIdx sequence
    let oddDiff := JS.sub (sGet odd 1) (sGet odd 0)
    let evenDiff := JS.sub (sGet even 1) (sGet even 0)
    let stepBetween := JS.sub (sGet even 0) (sGet odd 0)
    if sequence.length % 2 = 0 then
      let nextOdd := JS.add (sGet odd (odd.length - 1)) oddDiff
      some { nextElements := [nextOdd, JS.add nextOdd stepBetween, JS.add nextOdd oddDiff],
             ruleType := RuleType.hybrid,
             formula := FormulaT.interleaveSameF (sGet odd 0) oddDiff (sGet even 0) evenDiff,
             confidence := 0.95 }
    else
      let nextEven := JS.add (sGet even (even.length - 1)) evenDiff
      some { nextElements := [nextEven, JS.add (JS.sub nextEven stepBetween) oddDiff,
               JS.add nextEven evenDiff],
             ruleType := RuleType.hybrid,
             formula := FormulaT.interleaveSameF (sGet odd 0) oddDiff (sGet even 0) evenDiff,
             confidence := 0.95 }
  else
  if 6 ≤ sequence.length ∧
      checkArithmeticSequence (atEvenIdx sequence) ∧
      checkGeometricSequence (atOddIdx sequence) then
    let odd := atEvenIdx sequence
    let even := atOddIdx sequence
    let oddDiff := JS.sub (sGet odd 1) (sGet odd 0)
    let evenRatio := JS.div (sGet even 1) (sGet even 0)
    if sequence.length % 2 = 0 then
      some { nextElements := [JS.add (sGet odd (odd.length - 1)) oddDiff,
               JS.mul (sGet even (even.length - 1)) evenRatio,
               JS.add (sGet odd (odd.length - 1)) (JS.mul oddDiff (JS.fin 2))],
             ruleType := RuleType.hybrid,
             formula := FormulaT.hybridAGF (sGet odd 0) oddDiff (sGet even 0) evenRatio,
             confidence := 0.82 }
    else
      some { nextElements := [JS.mul (sGet even (even.length - 1)) evenRatio,
               JS.add (sGet odd (odd.length - 1)) oddDiff,
               JS.mul (JS.mul (sGet even (even.length - 1)) evenRatio) evenRatio],
             ruleType := RuleType.hybrid,
             formula := FormulaT.hybridAGF (sGet odd 0) oddDiff (sGet even 0) evenRatio,
             confidence := 0.82 }
  else
  match checkConsecutiveEvenOddPattern sequence with
  | some (startType, groupSize) =>
      match consecutiveStep startType groupSize sequence.length 0 fuel
          (sGet sequence (sequence.length - 1)) with
      | none => none
      | some n1 =>
        match consecutiveStep startType groupSize sequence.length 1 fuel n1 with
        | none => none
        | some n2 =>
          match consecutiveStep startType groupSize sequence.length 2 fuel n2 with
          | none => none
          | some n3 =>
            some { nextElements := [n1, n2, n3], ruleType := RuleType.alternating,
                   formula := FormulaT.groupsF groupSize startType,
                   confidence := 0.95 }
  | none =>
  some { nextElements := [JS.add (sGet sequence (sequence.length - 1))
             (JS.sub (sGet sequence (sequence.length - 1)) (sGet sequence (sequence.length - 2))),
           JS.add (sGet sequence (sequence.length - 1))
             (JS.mul (JS.sub (sGet sequence (sequence.length - 1)) (sGet sequence (sequence.length - 2))) (JS.fin 2)),
           JS.add (sGet sequence (sequence.length - 1))
             (JS.mul (JS.sub (sGet sequence (sequence.length - 1)) (sGet sequence (sequence.length - 2))) (JS.fin 3))],
         ruleType := RuleType.unknown,
         formula := FormulaT.lastDiffF
           (JS.sub (sGet sequence (sequence.length - 1)) (sGet sequence (sequence.length - 2))),
         confidence := 0.5 }

/-- Successor of the odd-position branch in the interleaved case
(`pattern1.includes('arithmetic')` selects the arithmetic continuation). -/
def interNextOdd (odd : List JS) (p1 : BK) : JS :=
  match p1 with
  | BK.arith _ => JS.add (sGet odd (odd.length - 1)) (JS.sub (sGet odd 1) (sGet odd 0))
  | BK.geom _ => JS.mul (sGet odd (odd.length - 1)) (JS.div (sGet odd 1) (sGet odd 0))

/-- First successor of the even-position branch in the interleaved case. -/
def interNextEven1 (even : List JS) (p2 : BK) : JS :=
  match p2 with
  | BK.arith _ => JS.add (sGet even (even.length - 1)) (JS.sub (sGet even 1) (sGet even 0))
  | BK.geom _ => JS.mul (sGet even (even.length - 1)) (JS.div (sGet even 1) (sGet even 0))

/-- Second successor of the even-position branch in the interleaved case. -/
def interNextEven2 (even : List JS) (p2 : BK) (ne1 : JS) : JS :=
  match p2 with
  | BK.arith _ => JS.add ne1 (JS.sub (sGet even 1) (sGet even 0))
  | BK.geom _ => JS.mul ne1 (JS.div (sGet even 1) (sGet even 0))

/-- Stage of `predictSequence` covering dummyPredictor.ts lines 184-412
(alternating differences, interleaved, alternating, power, cyclic,
difference patterns, ratio patterns), falling through to `predictStage3`. -/
def predictStage2 (fuel : ℕ) (sequence : List JS) : Option PredictionResult :=
  match checkAlternatingDifference sequence with
  | some (altDiff1, altDiff2) =>
      if sequence.length % 2 = 0 then
        let n1 := JS.add (sGet sequence (sequence.length - 1)) altDiff1
        let n2 := JS.add n1 altDiff2
        some { nextElements := [n1, n2, JS.add n2 altDiff1],
               ruleType := RuleType.alternating,
               formula := FormulaT.altDiffF altDiff1 altDiff2, confidence := 0.92 }
      else
        let n1 := JS.add (sGet sequence (sequence.length - 1)) altDiff2
        let n2 := JS.add n1 altDiff1
        some { nextElements := [n1, n2, JS.add n2 altDiff2],
               ruleType := RuleType.alternating,
               formula := FormulaT.altDiffF altDiff1 altDiff2, confidence := 0.92 }
  | none =>
  match checkInterleaved sequence with
  | some (p1, p2) =>
      if sequence.length % 2 = 0 then
        some { nextElements := [interNextOdd (atEvenIdx sequence) p1,
                 interNextEven1 (atOddIdx sequence) p2,
                 JS.add (interNextOdd (atEvenIdx sequence) p1)
                   (JS.sub (interNextOdd (atEvenIdx sequence) p1)
                     (sGet (atEvenIdx sequence) ((atEvenIdx sequence).length - 1)))],
               ruleType := RuleType.hybrid,
               formula := FormulaT.twoSeqF p1 p2, confidence := 0.9 }
      else
        some { nextElements := [interNextEven1 (atOddIdx sequence) p2,
                 interNextOdd (atEvenIdx sequence) p1,
                 interNextEven2 (atOddIdx sequence) p2
                   (interNextEven1 (atOddIdx sequence) p2)],
               ruleType := RuleType.hybrid,
               formula := FormulaT.twoSeqF p1 p2, confidence := 0.9 }
  | none =>
  match checkAlternatingSequence sequence with
  | some (altValue1, altValue2) =>
      if (sequence.length - 1) % 2 = 0 then
        let n1 := JS.add (sGet sequence (sequence.length - 1)) altValue2
        let n2 := JS.add n1 altValue1
        some { nextElements := [n1, n2, JS.add n2 altValue2],
               ruleType := RuleType.alternating,
               formula := FormulaT.oddEvenPlusF altValue1 altValue2, confidence := 0.89 }
      else
        let n1 := JS.add (sGet sequence (sequence.length - 1)) altValue1
        let n2 := JS.add n1 altValue2
        some { nextElements := [n1, n2, JS.add n2 altValue1],
               ruleType := RuleType.alternating,
               formula := FormulaT.oddEvenPlusF altValue1 altValue2, confidence := 0.89 }
  | none =>
  match checkPowerSequence sequence with
  | some base =>
      some { nextElements := [JS.fin ((base : ℝ) ^ sequence.length),
               JS.fin ((base : ℝ) ^ (sequence.length + 1)),
               JS.fin ((base : ℝ) ^ (sequence.length + 2))],
             ruleType := RuleType.power, formula := FormulaT.powF base,
             confidence := 0.9 }
  | none =>
  match checkCyclicPattern sequence with
  | some (pattern, cycleLength) =>
      some { nextElements := [sGet pattern (sequence.length % cycleLength),
               sGet pattern ((sequence.length + 1) % cycleLength),
               sGet pattern ((sequence.length + 2) % cycleLength)],
             ruleType := RuleType.hybrid, formula := FormulaT.repeatBlockF pattern,
             confidence := 0.9 }
  | none =>
  match checkDifferencePatterns sequence with
  | some (diffValue, DOrder.firstOrder) =>
      let last := sGet sequence (sequence.length - 1)
      some { nextElements := [JS.add last diffValue,
               JS.add last (JS.mul diffValue (JS.fin 2)),
               JS.add last (JS.mul diffValue (JS.fin 3))],
             ruleType := RuleType.difference_pattern, formula := FormulaT.linearF,
             confidence := 0.9 }
  | some (diffValue, DOrder.secondOrder) =>
      let last := sGet sequence (sequence.length - 1)
      let firstDiffs := diffsJS sequence
      let lastDiff := sGet firstDiffs (firstDiffs.length - 1)
      let nd1 := JS.add lastDiff diffValue
      let nd2 := JS.add nd1 diffValue
      let nd3 := JS.add nd2 diffValue
      some { nextElements := [JS.add last nd1, JS.add (JS.add last nd1) nd2,
               JS.add (JS.add (JS.add last nd1) nd2) nd3],
             ruleType := RuleType.difference_pattern, formula := FormulaT.quadraticF,
             confidence := 0.87 }
  | some (diffValue, DOrder.thirdOrder) =>
      let last := sGet sequence (sequence.length - 1)
      let firstDiffs := diffsJS sequence
      let secondDiffs := diffsJS firstDiffs
      let lastFirstDiff := sGet firstDiffs (firstDiffs.length - 1)
      let lastSecondDiff := sGet secondDiffs (secondDiffs.length - 1)
      let ns1 := JS.add lastSecondDiff diffValue
      let ns2 := JS.add ns1 diffValue
      let nf1 := JS.add lastFirstDiff ns1
      let nf2 := JS.add (JS.add nf1 ns1) ns2
      some { nextElements := [JS.add last nf1, JS.add (JS.add last nf1) nf2,
               JS.add (JS.add (JS.add last nf1) nf2)
                 (JS.add (JS.add nf2 ns2) diffValue)],
             ruleType := RuleType.difference_pattern, formula := FormulaT.cubicThirdF,
             confidence := 0.85 }
  | none =>
  match checkRatioPatterns sequence with
  | some (ratioValue, ROrder.firstOrder) =>
      let last := sGet sequence (sequence.length - 1)
      some { nextElements := [JS.mul last ratioValue,
               JS.mul last (JS.powInt ratioValue 2),
               JS.mul last (JS.powInt ratioValue 3)],
             ruleType := RuleType.ratio_pattern, formula := FormulaT.geomRatioF,
             confidence := 0.9 }
  | some (ratioValue, ROrder.secondOrder) =>
      let last := sGet sequence (sequence.length - 1)
      let ratios := (ratiosJS sequence).filter (fun r => !(JS.isNaNB r) && JS.isFiniteB r)
      let lastRatio := sGet ratios (ratios.length - 1)
      let nr1 := JS.mul lastRatio ratioValue
      let nr2 := JS.mul nr1 ratioValue
      some { nextElements := [JS.mul last nr1, JS.mul (JS.mul last nr1) nr2,
               JS.mul (JS.mul (JS.mul last nr1) nr2) (JS.mul nr2 ratioValue)],
             ruleType := RuleType.ratio_pattern, formula := FormulaT.ratio2F,
             confidence := 0.86 }
  | none => predictStage3 fuel sequence

/-- `predictSequence` (dummyPredictor.ts lines 27-182, falling through to
`predictStage2` and `predictStage3` for the later branches).  `fuel` bounds
only the parity `while` loop of the consecutive-even/odd branch; `none`
means that loop did not finish within `fuel` increments (and `none` at
every fuel means the original diverges). -/
def predictSequence (fuel : ℕ) (sequence : List JS) : Option PredictionResult :=
  if sequence.length < 3 then
    some { nextElements := [], ruleType := RuleType.unknown,
           formula := FormulaT.na, confidence := 0 }
  else
  match detectComplexAlternatingPattern sequence with
  | some (_, _, complexNextElements) =>
      some { nextElements := complexNextElements, ruleType := RuleType.alternating,
             formula := FormulaT.altOpsF, confidence := 0.95 }
  | none =>
  match detectAlternatingDifferencePattern sequence with
  | some (diffPattern, altDiffNextElements) =>
      some { nextElements := altDiffNextElements, ruleType := RuleType.alternating,
             formula := FormulaT.cycleLenF diffPattern.length, confidence := 0.94 }
  | none =>
  if checkSpecificPattern7108 sequence then
    some { nextElements := [JS.fin 10, JS.fin 13, JS.fin 11],
           ruleType := RuleType.hybrid, formula := FormulaT.interleave7108F,
           confidence := 0.99 }
  else
  match detectAlternatingPatternWithStep sequence with
  | some (oddDiff, evenDiff, step) =>
      some { nextElements := generateNextAlternatingElements sequence oddDiff evenDiff step,
             ruleType := RuleType.alternating,
             formula := FormulaT.interleaveStepF (sGet (atEvenIdx sequence) 0) oddDiff
               (sGet (atOddIdx sequence) 0) evenDiff,
             confidence := 0.98 }
  | none =>
  if checkArithmeticSequence sequence then
    let difference := JS.sub (sGet sequence 1) (sGet sequence 0)
    let last := sGet sequence (sequence.length - 1)
    some { nextElements := [JS.add last difference,
             JS.add last (JS.mul difference (JS.fin 2)),
             JS.add last (JS.mul difference (JS.fin 3))],
           ruleType := RuleType.arithmetic,
           formula := FormulaT.arithF (sGet sequence 0) difference,
           confidence := 0.95 }
  else if checkGeometricSequence sequence then
    let ratio := JS.div (sGet sequence 1) (sGet sequence 0)
    let last := sGet sequence (sequence.length - 1)
    some { nextElements := [JS.mul last ratio, JS.mul last (JS.powInt ratio 2),
             JS.mul last (JS.powInt ratio 3)],
           ruleType := RuleType.geometric,
           formula := FormulaT.geomF (sGet sequence 0) ratio,
           confidence := 0.93 }
  else if checkFibonacciSequence sequence then
    let last := sGet sequence (sequence.length - 1)
    let prev := sGet sequence (sequence.length - 2)
    some { nextElements := [JS.add last prev, JS.add (JS.add last prev) last,
             JS.add (JS.mul last (JS.fin 2)) prev],
           ruleType := RuleType.fibonacci, formula := FormulaT.fibF,
           confidence := 0.9 }
  else if checkSquareSequence sequence then
    let nextIndex := JS.add (JS.sqrt (sGet sequence (sequence.length - 1))) (JS.fin 1)
    some { nextElements := [JS.powInt nextIndex 2,
             JS.powInt (JS.add nextIndex (JS.fin 1)) 2,
             JS.powInt (JS.add nextIndex (JS.fin 2)) 2],
           ruleType := RuleType.square, formula := FormulaT.squareF,
           confidence := 0.92 }
  else if checkCubeSequence sequence then
    let nextIndex := JS.add (JS.cbrt (sGet sequence (sequence.length - 1))) (JS.fin 1)
    some { nextElements := [JS.powInt nextIndex 3,
             JS.powInt (JS.add nextIndex (JS.fin 1)) 3,
             JS.powInt (JS.add nextIndex (JS.fin 2)) 3],
           ruleType := RuleType.cube, formula := FormulaT.cubeF,
           confidence := 0.91 }
  else predictStage2 fuel sequence

/-- "No detector family matches": every guard along the `predictSequence`
if/else chain is false, so control reaches the final fallback. -/
def noDetectorMatches (l : List JS) : Prop :=
  detectComplexAlternatingPattern l = none ∧
  detectAlternatingDifferencePattern l = none ∧
  ¬ checkSpecificPattern7108 l ∧
  detectAlternatingPatternWithStep l = none ∧
  ¬ checkArithmeticSequence l ∧
  ¬ checkGeometricSequence l ∧
  ¬ checkFibonacciSequence l ∧
  ¬ checkSquareSequence l ∧
  ¬ checkCubeSequence l ∧
  checkAlternatingDifference l = none ∧
  checkInterleaved l = none ∧
  checkAlternatingSequence l = none ∧
  checkPowerSequence l = none ∧
  checkCyclicPattern l = none ∧
  checkDifferencePatterns l = none ∧
  checkRatioPatterns l = none ∧
  ¬ (delayPlusConstantCond l ∧ 4 ≤ l.length) ∧
  ¬ (4 ≤ l.length ∧
      checkArithmeticSequence (atEvenIdx l) ∧
      checkArithmeticSequence (atOddIdx l) ∧
      JS.lt (JS.abs (JS.sub
          (JS.sub (sGet (atEvenIdx l) 1) (sGet (atEvenIdx l) 0))
          (JS.sub (sGet (atOddIdx l) 1) (sGet (atOddIdx l) 0))))
        (JS.fin tol)) ∧
  ¬ (6 ≤ l.length ∧
      checkArithmeticSequence (atEvenIdx l) ∧
      checkGeometricSequence (atOddIdx l)) ∧
  checkConsecutiveEvenOddPattern l = none

/-! Structural facts: every detector with a length guard returns its
no-match value on inputs shorter than the guard. -/

theorem detectComplexAlternatingPattern_short {l : List JS} (h : l.length < 5) :
    detectComplexAlternatingPattern l = none := by
  simp only [detectComplexAlternatingPattern]
  rw [if_neg (by omega)]

theorem detectAlternatingDifferencePattern_short {l : List JS} (h : l.length < 6) :
    detectAlternatingDifferencePattern l = none := by
  simp only [detectAlternatingDifferencePattern]
  rw [if_neg (by omega)]

theorem checkSpecificPattern7108_short {l : List JS} (h : l.length < 6) :
    ¬ checkSpecificPattern7108 l := fun hc => absurd hc.1 (by omega)

theorem detectAlternatingPatternWithStep_short {l : List JS} (h : l.length < 4) :
    detectAlternatingPatternWithStep l = none := by
  simp only [detectAlternatingPatternWithStep]
  rw [if_neg (by omega)]

theorem checkAlternatingDifference_short {l : List JS} (h : l.length < 4) :
    checkAlternatingDifference l = none := by
  simp only [checkAlternatingDifference]
  rw [if_neg (by omega)]

theorem checkInterleaved_short {l : List JS} (h : l.length < 6) :
    checkInterleaved l = none := by
  simp only [checkInterleaved]
  rw [if_neg (by omega)]

theorem checkAlternatingSequence_short {l : List JS} (h : l.length < 4) :
    checkAlternatingSequence l = none := by
  simp only [checkAlternatingSequence]
  rw [if_neg (by omega)]

theorem checkCyclicPattern_short {l : List JS} (h : l.length < 6) :
    checkCyclicPattern l = none := by
  simp only [checkCyclicPattern]
  rw [if_neg (by omega)]

theorem checkDifferencePatterns_short {l : List JS} (h : l.length < 4) :
    checkDifferencePatterns l = none := by
  simp only [checkDifferencePatterns]
  rw [if_neg (by omega)]

theorem checkRatioPatterns_short {l : List JS} (h : l.length < 4) :
    checkRatioPatterns l = none := by
  simp only [checkRatioPatterns]
  rw [if_neg (by omega)]

/-! The delay+constant condition is unsatisfiable: at index 0 the JS code
reads `sequence[-1]`, i.e. `undefined`, so the compared quantity is NaN and
the `<` comparison is false. -/

theorem delayPlusConstantCond_false {l : List JS} (h4 : 4 ≤ l.length) :
    ¬ delayPlusConstantCond l := by
  intro hc
  have h0 := hc 0 (by simp only [List.length_drop]; omega)
  rw [sIdx, if_pos (show ((0 : ℕ) : ℤ) - 1 < 0 by norm_num)] at h0
  simp only [JS.sub_nan_right, JS.abs_nan] at h0
  exact JS.lt_nan_left _ h0

/-! Non-integers are never JS-even, and the parity search starting from a
half-integer diverges when an even number is demanded. -/

theorem not_isEvenNum_half (m : ℤ) : ¬ JS.isEvenNum (JS.fin ((m : ℝ) + 1/2)) := by
  rintro ⟨n, hn⟩
  have h2 : ((2*m + 1 : ℤ) : ℝ) = ((4*n : ℤ) : ℝ) := by push_cast; linarith
  have h3 : (2*m + 1 : ℤ) = 4*n := by exact_mod_cast h2
  omega

theorem paritySearch_diverges_half (target : Prop) (ht : target) :
    ∀ (f : ℕ) (m : ℤ), paritySearch target f (JS.fin ((m : ℝ) + 1/2)) = none := by
  intro f
  induction f with
  | zero =>
      intro m
      rw [paritySearch, if_neg]
      intro hiff
      exact not_isEvenNum_half m (hiff.mpr ht)
  | succ f ih =>
      intro m
      rw [paritySearch, if_neg]
      · have hstep : JS.add (JS.fin ((m : ℝ) + 1/2)) (JS.fin 1)
            = JS.fin (((m + 1 : ℤ) : ℝ) + 1/2) := by
          simp only [JS.add_fin_fin, JS.fin_inj]
          push_cast; ring
        rw [hstep]
        exact ih (m + 1)
      · intro hiff
        exact not_isEvenNum_half m (hiff.mpr ht)

/-- Shape of every result returned by `predictStage3`: three successors,
confidence at least 1/2, and never the delay+constant formula (whose branch
is unreachable). -/
theorem stage3_some_inv (fuel : ℕ) (l : List JS) (r : PredictionResult)
    (h : predictStage3 fuel l = some r) :
    r.nextElements.length = 3 ∧ (1/2 : ℝ) ≤ r.confidence ∧
      ∀ c, r.formula ≠ FormulaT.delayF c := by
  unfold predictStage3 at h
  dsimp only [] at h
  repeat' split at h
  all_goals try (cases h)
  all_goals try
    exact absurd ‹delayPlusConstantCond l ∧ 4 ≤ l.length›.1
        (delayPlusConstantCond_false ‹delayPlusConstantCond l ∧ 4 ≤ l.length›.2)
  all_goals exact ⟨rfl, by norm_num, by rintro c ⟨⟩⟩

/-- Shape of every result returned by `predictStage2`. -/
theorem stage2_some_inv (fuel : ℕ) (l : List JS) (r : PredictionResult)
    (h : predictStage2 fuel l = some r) :
    r.nextElements.length = 3 ∧ (1/2 : ℝ) ≤ r.confidence ∧
      ∀ c, r.formula ≠ FormulaT.delayF c := by
  unfold predictStage2 at h
  dsimp only [] at h
  repeat' split at h
  all_goals try (cases h)
  all_goals try exact stage3_some_inv fuel l r h
  all_goals exact ⟨rfl, by norm_num, by rintro c ⟨⟩⟩

/-- A successful complex-alternating detection always carries exactly three
successors. -/
theorem detectComplex_some_length {l : List JS} {o e : COp} {ns : List JS}
    (h : detectComplexAlternatingPattern l = some (o, e, ns)) : ns.length = 3 := by
  unfold detectComplexAlternatingPattern at h
  dsimp only [] at h
  repeat' split at h
  all_goals try (cases h)
  · rfl

/-- A successful alternating-difference detection always carries exactly
three successors. -/
theorem detectAltDiff_some_length {l : List JS} {p ns : List JS}
    (h : detectAlternatingDifferencePattern l = some (p, ns)) : ns.length = 3 := by
  unfold detectAlternatingDifferencePattern at h
  dsimp only [] at h
  repeat' split at h
  all_goals try (cases h)
  all_goals rfl

/-- Shape of every returned result: a too-short input yields the degenerate
record, and any other return has exactly three successors, confidence at
least 1/2, and a formula that is never the delay+constant one. -/
theorem predict_some_inv (fuel : ℕ) (l : List JS) (r : PredictionResult)
    (h : predictSequence fuel l = some r) :
    (l.length < 3 ∧ r = ⟨[], RuleType.unknown, FormulaT.na, 0⟩) ∨
    (3 ≤ l.length ∧ r.nextElements.length = 3 ∧ (1/2 : ℝ) ≤ r.confidence ∧
      ∀ c, r.formula ≠ FormulaT.delayF c) := by
  unfold predictSequence at h
  split at h
  · cases h
    exact Or.inl ⟨by assumption, rfl⟩
  · right
    refine ⟨by omega, ?_⟩
    repeat' split at h
    all_goals try (cases h)
    all_goals try exact stage2_some_inv fuel l r h
    all_goals
      refine ⟨?_, by norm_num, by rintro c ⟨⟩⟩
    all_goals
      first
        | rfl
        | exact detectComplex_some_length (by assumption)
        | exact detectAltDiff_some_length (by assumption)
        | (simp only [generateNextAlternatingElements]; split <;> rfl)

/-! Evaluation toolkit: rounding, near-integer tests, and hop
classification on concrete or symbolic finite values. -/

theorem round_fin_eq {x : ℝ} {n : ℤ} (h1 : (n : ℝ) ≤ x + 1/2)
    (h2 : x + 1/2 < (n : ℝ) + 1) : JS.round (JS.fin x) = JS.fin (n : ℝ) := by
  rw [JS.round_fin, JS.fin_inj]
  have : ⌊x + 1/2⌋ = n := Int.floor_eq_iff.mpr ⟨h1, by push_cast; linarith⟩
  exact_mod_cast congrArg (fun z : ℤ => (z : ℝ)) this

theorem roundI_fin_eq {x : ℝ} {n : ℤ} (h1 : (n : ℝ) ≤ x + 1/2)
    (h2 : x + 1/2 < (n : ℝ) + 1) : roundI (JS.fin x) = n := by
  simp only [roundI]
  exact Int.floor_eq_iff.mpr ⟨h1, by push_cast; linarith⟩

theorem nearIntJS_fin_iff {x : ℝ} {n : ℤ} (h1 : (n : ℝ) ≤ x + 1/2)
    (h2 : x + 1/2 < (n : ℝ) + 1) : nearIntJS (JS.fin x) ↔ |x - (n : ℝ)| < tol := by
  unfold nearIntJS
  rw [round_fin_eq h1 h2, JS.sub_fin_fin, JS.abs_fin, JS.lt_fin_fin, ← sub_eq_add_neg]

theorem not_nearIntJS_of_far {x : ℝ} (h : ∀ n : ℤ, tol ≤ |x - n|) :
    ¬ nearIntJS (JS.fin x) := by
  unfold nearIntJS
  rw [JS.round_fin, JS.sub_fin_fin, JS.abs_fin, JS.lt_fin_fin, ← sub_eq_add_neg]
  exact not_lt.mpr (h _)

theorem not_nearIntJS_nan : ¬ nearIntJS JS.nan := fun h => h

theorem not_nearIntJS_posInf : ¬ nearIntJS JS.posInf := fun h => h

theorem not_nearIntJS_negInf : ¬ nearIntJS JS.negInf := fun h => h

theorem js_div_nan_left (x : JS) : JS.div JS.nan x = JS.nan := by cases x <;> rfl

theorem js_div_nan_right (x : JS) : JS.div x JS.nan = JS.nan := by cases x <;> rfl

theorem js_log_fin_neg {a : ℝ} (h : a < 0) : JS.log (JS.fin a) = JS.nan := by
  simp only [JS.log]
  rw [if_pos h]

theorem js_log_fin_pos {a : ℝ} (h : 0 < a) :
    JS.log (JS.fin a) = JS.fin (Real.log a) := by
  simp only [JS.log]
  rw [if_neg (by linarith), if_neg (by linarith)]

theorem js_powInt_fin_two (x : ℝ) : JS.powInt (JS.fin x) 2 = JS.fin (x ^ 2) := by
  simp only [JS.powInt]
  rw [if_neg (by norm_num)]
  simp only [if_neg (by norm_num : ¬ (x = 0 ∧ (2 : ℤ) < 0)), JS.fin_inj]
  norm_cast

theorem js_powInt_fin_three (x : ℝ) : JS.powInt (JS.fin x) 3 = JS.fin (x ^ 3) := by
  simp only [JS.powInt]
  rw [if_neg (by norm_num)]
  simp only [if_neg (by norm_num : ¬ (x = 0 ∧ (3 : ℤ) < 0)), JS.fin_inj]
  norm_cast

/-- Hop classification when the ratio is near an integer: a multiply op. -/
theorem hopOp_mulOp {a b : ℝ} (ha : a ≠ 0) (hmul : nearIntJS (JS.fin (b / a))) :
    hopOp (JS.fin a) (JS.fin b) = COp.mulOp (roundI (JS.fin (b / a))) := by
  unfold hopOp
  rw [JS.div_fin_fin _ _ ha, if_pos hmul]

/-- Hop classification on a negative target with a ratio not near an
integer: the power test sees `Math.log` of a negative number (NaN), so the
hop is an add op. -/
theorem hopOp_addOp_of_neg {a b : ℝ} (ha : a ≠ 0) (hb : b < 0)
    (hmul : ¬ nearIntJS (JS.fin (b / a))) :
    hopOp (JS.fin a) (JS.fin b) = COp.addOp (JS.fin (b + -a)) := by
  unfold hopOp
  rw [JS.div_fin_fin _ _ ha, if_neg hmul, js_log_fin_neg hb, js_div_nan_left,
    if_neg not_nearIntJS_nan, JS.sub_fin_fin]

/-- Hop classification when ratio and power are both resolved and neither is
near an integer: an add op. -/
theorem hopOp_addOp_of_far {a b : ℝ} (ha : a ≠ 0)
    (hmul : ¬ nearIntJS (JS.fin (b / a)))
    (hpow : ¬ nearIntJS (JS.div (JS.log (JS.fin b)) (JS.log (JS.fin a)))) :
    hopOp (JS.fin a) (JS.fin b) = COp.addOp (JS.fin (b + -a)) := by
  unfold hopOp
  rw [JS.div_fin_fin _ _ ha, if_neg hmul, if_neg hpow, JS.sub_fin_fin]

theorem areAllValuesEqual_of (l : List JS)
    (h : ∀ x ∈ l, JS.lt (JS.abs (JS.sub x (sGet l 0))) (JS.fin tol)) :
    areAllValuesEqual l := by
  unfold areAllValuesEqual
  split
  · trivial
  · exact h

theorem lt_tol_of_eq {p q : ℝ} (h : p = q) :
    JS.lt (JS.abs (JS.sub (JS.fin p) (JS.fin q))) (JS.fin tol) := by
  simp only [JS.sub_fin_fin, JS.abs_fin, JS.lt_fin_fin]
  rw [h, add_neg_cancel, abs_zero, tol]
  norm_num

/-- C2 counterexample: the 5-term arithmetic sequence with first element -2
and common difference -3 is classified `alternating` (with confidence 0.95,
by the complex-alternating detector, which runs before the arithmetic
check), not `arithmetic` as the claim states. -/
theorem C2_counterexample :
    predictSequence 0
        [JS.fin (-2), JS.fin (-5), JS.fin (-8), JS.fin (-11), JS.fin (-14)] =
      some { nextElements := [JS.fin (-17), JS.fin (-20), JS.fin (-23)],
             ruleType := RuleType.alternating, formula := FormulaT.altOpsF,
             confidence := 0.95 } ∧
    RuleType.alternating ≠ RuleType.arithmetic := by
  have hm1 : ¬ nearIntJS (JS.fin ((-5 : ℝ) / (-2))) := by
    rw [nearIntJS_fin_iff (n := 3) (by norm_num) (by norm_num)]
    simp only [abs_lt, tol]
    intro hc
    rcases hc with ⟨hc1, hc2⟩
    norm_num at hc1 hc2 hc2
  have hm2 : ¬ nearIntJS (JS.fin ((-8 : ℝ) / (-5))) := by
    rw [nearIntJS_fin_iff (n := 2) (by norm_num) (by norm_num)]
    simp only [abs_lt, tol]
    intro hc
    rcases hc with ⟨hc1, hc2⟩
    norm_num at hc1 hc2
  have hm3 : ¬ nearIntJS (JS.fin ((-11 : ℝ) / (-8))) := by
    rw [nearIntJS_fin_iff (n := 1) (by norm_num) (by norm_num)]
    simp only [abs_lt, tol]
    intro hc
    rcases hc with ⟨hc1, hc2⟩
    norm_num at hc1 hc2 hc2
  have hm4 : ¬ nearIntJS (JS.fin ((-14 : ℝ) / (-11))) := by
    rw [nearIntJS_fin_iff (n := 1) (by norm_num) (by norm_num)]
    simp only [abs_lt, tol]
    intro hc
    rcases hc with ⟨hc1, hc2⟩
    norm_num at hc1 hc2 hc2
  have e0 := hopOp_addOp_of_neg (a := -2) (b := -5) (by norm_num) (by norm_num) hm1
  have e1 := hopOp_addOp_of_neg (a := -5) (b := -8) (by norm_num) (by norm_num) hm2
  have e2 := hopOp_addOp_of_neg (a := -8) (b := -11) (by norm_num) (by norm_num) hm3
  have e3 := hopOp_addOp_of_neg (a := -11) (b := -14) (by norm_num) (by norm_num) hm4
  have hh : hopOps [JS.fin (-2), JS.fin (-5), JS.fin (-8), JS.fin (-11), JS.fin (-14)] =
      [COp.addOp (JS.fin ((-5 : ℝ) + -(-2))), COp.addOp (JS.fin ((-8 : ℝ) + -(-5))),
       COp.addOp (JS.fin ((-11 : ℝ) + -(-8))), COp.addOp (JS.fin ((-14 : ℝ) + -(-11)))] := by
    show [hopOp (JS.fin (-2)) (JS.fin (-5)), hopOp (JS.fin (-5)) (JS.fin (-8)),
      hopOp (JS.fin (-8)) (JS.fin (-11)), hopOp (JS.fin (-11)) (JS.fin (-14))] = _
    rw [e0, e1, e2, e3]
  have hco : opsConsistent (atEvenIdx
      (hopOps [JS.fin (-2), JS.fin (-5), JS.fin (-8), JS.fin (-11), JS.fin (-14)])) := by
    rw [hh]
    intro o ho
    simp only [atEvenIdx, List.mem_cons, List.not_mem_nil, or_false] at ho
    rcases ho with rfl | rfl <;>
      simp only [List.headD, atEvenIdx, COp.addOp.injEq, JS.fin_inj] <;> norm_num
  have hce : opsConsistent (atOddIdx
      (hopOps [JS.fin (-2), JS.fin (-5), JS.fin (-8), JS.fin (-11), JS.fin (-14)])) := by
    rw [hh]
    intro o ho
    simp only [atOddIdx, List.mem_cons, List.not_mem_nil, or_false] at ho
    rcases ho with rfl | rfl <;>
      simp only [List.headD, atOddIdx, COp.addOp.injEq, JS.fin_inj] <;> norm_num
  have hcx : detectComplexAlternatingPattern
      [JS.fin (-2), JS.fin (-5), JS.fin (-8), JS.fin (-11), JS.fin (-14)] =
      some (COp.addOp (JS.fin ((-5 : ℝ) + -(-2))), COp.addOp (JS.fin ((-8 : ℝ) + -(-5))),
        [JS.fin (-17), JS.fin (-20), JS.fin (-23)]) := by
    unfold detectComplexAlternatingPattern
    dsimp only []
    rw [if_pos (by simp), if_pos ⟨hco, hce⟩, hh]
    simp only [atEvenIdx, atOddIdx, List.headD, complexNexts, applyOp, sGet,
      List.getD, List.length_cons, List.length_nil, Option.some.injEq,
      Prod.mk.injEq, JS.add_fin_fin, JS.fin_inj]
    norm_num
  constructor
  · unfold predictSequence
    rw [if_neg (by simp), hcx]
  · exact fun h => RuleType.noConfusion h

theorem areAllValuesEqual_single (x : JS) : areAllValuesEqual [x] := by
  unfold areAllValuesEqual
  rw [if_pos (by simp)]
  trivial

theorem areAllValuesEqual_pair_fin {p q : ℝ} (h : q = p) :
    areAllValuesEqual [JS.fin p, JS.fin q] := by
  apply areAllValuesEqual_of
  intro x hx
  simp only [List.mem_cons, List.not_mem_nil, or_false] at hx
  have h0 : sGet [JS.fin p, JS.fin q] 0 = JS.fin p := rfl
  rcases hx with rfl | rfl
  · rw [h0]; exact lt_tol_of_eq rfl
  · rw [h0]; exact lt_tol_of_eq h

/-- C2 (amended): every 5-term arithmetic sequence `[a, a+d, ..., a+4d]` is
classified `alternating`, never `arithmetic`: the complex-alternating
detector (confidence 0.95) or, failing that, the interleaved
with-step detector (confidence 0.98, successors `[a+5d, a+6d, a+7d]`)
always fires before the arithmetic branch is reached. -/
theorem C2_arithmetic_shadowed (a d : ℝ) (fuel : ℕ) :
    ∃ r : PredictionResult,
      predictSequence fuel
          [JS.fin a, JS.fin (a+d), JS.fin (a+2*d), JS.fin (a+3*d), JS.fin (a+4*d)] =
        some r ∧
      r.ruleType = RuleType.alternating ∧
      (r.confidence = 0.95 ∨ (r.confidence = 0.98 ∧
        r.nextElements = [JS.fin (a+5*d), JS.fin (a+6*d), JS.fin (a+7*d)])) := by
  rcases hcx : detectComplexAlternatingPattern
      [JS.fin a, JS.fin (a+d), JS.fin (a+2*d), JS.fin (a+3*d), JS.fin (a+4*d)]
    with _ | ⟨o, e, ns⟩
  case some =>
    refine ⟨⟨ns, RuleType.alternating, FormulaT.altOpsF, 0.95⟩, ?_, rfl, Or.inl rfl⟩
    unfold predictSequence
    rw [if_neg (by simp), hcx]
  case none =>
    have hdo : diffsJS (atEvenIdx
        [JS.fin a, JS.fin (a+d), JS.fin (a+2*d), JS.fin (a+3*d), JS.fin (a+4*d)]) =
        [JS.fin ((a+2*d) + -a), JS.fin ((a+4*d) + -(a+2*d))] := by
      simp [atEvenIdx, diffsJS]
    have hde : diffsJS (atOddIdx
        [JS.fin a, JS.fin (a+d), JS.fin (a+2*d), JS.fin (a+3*d), JS.fin (a+4*d)]) =
        [JS.fin ((a+3*d) + -(a+d))] := by
      simp [atOddIdx, diffsJS]
    have hst : List.zipWith JS.sub
        (atOddIdx [JS.fin a, JS.fin (a+d), JS.fin (a+2*d), JS.fin (a+3*d), JS.fin (a+4*d)])
        (atEvenIdx [JS.fin a, JS.fin (a+d), JS.fin (a+2*d), JS.fin (a+3*d), JS.fin (a+4*d)]) =
        [JS.fin ((a+d) + -a), JS.fin ((a+3*d) + -(a+2*d))] := by
      simp [atOddIdx, atEvenIdx]
    have hstep : detectAlternatingPatternWithStep
        [JS.fin a, JS.fin (a+d), JS.fin (a+2*d), JS.fin (a+3*d), JS.fin (a+4*d)] =
        some (JS.fin ((a+2*d) + -a), JS.fin ((a+3*d) + -(a+d)), JS.fin ((a+d) + -a)) := by
      unfold detectAlternatingPatternWithStep
      dsimp only []
      rw [if_pos (by simp), if_pos (by constructor <;> simp [atEvenIdx, atOddIdx])]
      rw [if_pos ⟨by rw [hdo]; exact areAllValuesEqual_pair_fin (by ring),
        by rw [hde]; exact areAllValuesEqual_single _⟩]
      rw [if_pos (by rw [hst]; exact areAllValuesEqual_pair_fin (by ring))]
      rw [hdo, hde, hst]
      rfl
    refine ⟨⟨generateNextAlternatingElements
        [JS.fin a, JS.fin (a+d), JS.fin (a+2*d), JS.fin (a+3*d), JS.fin (a+4*d)]
        (JS.fin ((a+2*d) + -a)) (JS.fin ((a+3*d) + -(a+d))) (JS.fin ((a+d) + -a)),
      RuleType.alternating,
      FormulaT.interleaveStepF (JS.fin a) (JS.fin ((a+2*d) + -a))
        (JS.fin (a+d)) (JS.fin ((a+3*d) + -(a+d))), 0.98⟩,
      ?_, rfl, Or.inr ⟨rfl, ?_⟩⟩
    · unfold predictSequence
      rw [if_neg (by simp), hcx]
      dsimp only []
      rw [detectAlternatingDifferencePattern_short (by simp)]
      dsimp only []
      rw [if_neg (checkSpecificPattern7108_short (by simp)), hstep]
      rfl
    · dsimp only []
      unfold generateNextAlternatingElements
      dsimp only []
      rw [if_pos (by simp)]
      simp [sGet, JS.fin_inj]
      refine ⟨by ring, by ring, by ring⟩

/-- C3 counterexample: the geometric sequence `[1, 2, 4, 8, 16]` (ratio 2)
is classified `alternating` with confidence 0.95 by the complex-alternating
detector (every hop is `multiply:2`), not `geometric` with 0.93 as the
claim states. -/
theorem C3_counterexample :
    predictSequence 0 [JS.fin 1, JS.fin 2, JS.fin 4, JS.fin 8, JS.fin 16] =
      some { nextElements := [JS.fin 32, JS.fin 64, JS.fin 128],
             ruleType := RuleType.alternating, formula := FormulaT.altOpsF,
             confidence := 0.95 } ∧
    RuleType.alternating ≠ RuleType.geometric := by
  have hm0 : nearIntJS (JS.fin ((2 : ℝ) / 1)) := by
    rw [nearIntJS_fin_iff (n := 2) (by norm_num) (by norm_num)]
    simp only [abs_lt, tol]
    constructor <;> norm_num
  have hm1 : nearIntJS (JS.fin ((4 : ℝ) / 2)) := by
    rw [nearIntJS_fin_iff (n := 2) (by norm_num) (by norm_num)]
    simp only [abs_lt, tol]
    constructor <;> norm_num
  have hm2 : nearIntJS (JS.fin ((8 : ℝ) / 4)) := by
    rw [nearIntJS_fin_iff (n := 2) (by norm_num) (by norm_num)]
    simp only [abs_lt, tol]
    constructor <;> norm_num
  have hm3 : nearIntJS (JS.fin ((16 : ℝ) / 8)) := by
    rw [nearIntJS_fin_iff (n := 2) (by norm_num) (by norm_num)]
    simp only [abs_lt, tol]
    constructor <;> norm_num
  have e0 : hopOp (JS.fin 1) (JS.fin 2) = COp.mulOp 2 := by
    rw [hopOp_mulOp (by norm_num) hm0, roundI_fin_eq (n := 2) (by norm_num) (by norm_num)]
  have e1 : hopOp (JS.fin 2) (JS.fin 4) = COp.mulOp 2 := by
    rw [hopOp_mulOp (by norm_num) hm1, roundI_fin_eq (n := 2) (by norm_num) (by norm_num)]
  have e2 : hopOp (JS.fin 4) (JS.fin 8) = COp.mulOp 2 := by
    rw [hopOp_mulOp (by norm_num) hm2, roundI_fin_eq (n := 2) (by norm_num) (by norm_num)]
  have e3 : hopOp (JS.fin 8) (JS.fin 16) = COp.mulOp 2 := by
    rw [hopOp_mulOp (by norm_num) hm3, roundI_fin_eq (n := 2) (by norm_num) (by norm_num)]
  have hh : hopOps [JS.fin 1, JS.fin 2, JS.fin 4, JS.fin 8, JS.fin 16] =
      [COp.mulOp 2, COp.mulOp 2, COp.mulOp 2, COp.mulOp 2] := by
    show [hopOp (JS.fin 1) (JS.fin 2), hopOp (JS.fin 2) (JS.fin 4),
      hopOp (JS.fin 4) (JS.fin 8), hopOp (JS.fin 8) (JS.fin 16)] = _
    rw [e0, e1, e2, e3]
  have hco : opsConsistent (atEvenIdx
      (hopOps [JS.fin 1, JS.fin 2, JS.fin 4, JS.fin 8, JS.fin 16])) := by
    rw [hh]
    intro o ho
    simp only [atEvenIdx, List.mem_cons, List.not_mem_nil, or_false] at ho
    rcases ho with rfl | rfl <;> rfl
  have hce : opsConsistent (atOddIdx
      (hopOps [JS.fin 1, JS.fin 2, JS.fin 4, JS.fin 8, JS.fin 16])) := by
    rw [hh]
    intro o ho
    simp only [atOddIdx, List.mem_cons, List.not_mem_nil, or_false] at ho
    rcases ho with rfl | rfl <;> rfl
  have hcx : detectComplexAlternatingPattern
      [JS.fin 1, JS.fin 2, JS.fin 4, JS.fin 8, JS.fin 16] =
      some (COp.mulOp 2, COp.mulOp 2, [JS.fin 32, JS.fin 64, JS.fin 128]) := by
    unfold detectComplexAlternatingPattern
    dsimp only []
    rw [if_pos (by simp), if_pos ⟨hco, hce⟩, hh]
    simp only [atEvenIdx, atOddIdx, List.headD, complexNexts, applyOp, sGet,
      List.getD, List.length_cons, List.length_nil, Option.some.injEq,
      Prod.mk.injEq, JS.mul_fin_fin, JS.fin_inj]
    norm_num
  constructor
  · unfold predictSequence
    rw [if_neg (by simp), hcx]
  · exact fun h => RuleType.noConfusion h

theorem js_div_fin_zero_den {a b : ℝ} (hb : b = 0) (ha : a ≠ 0) :
    JS.div (JS.fin a) (JS.fin b) = (if 0 < a then JS.posInf else JS.negInf) := by
  simp only [JS.div]
  rw [if_pos hb, if_neg ha]

theorem not_nearIntJS_ite_inf (c : Prop) [Decidable c] :
    ¬ nearIntJS (if c then JS.posInf else JS.negInf) := by
  split
  · exact not_nearIntJS_posInf
  · exact not_nearIntJS_negInf

/-- C3 (amended): for a ratio r that is at least the tolerance 1e-4 away
from every integer and satisfies |r-1| ≥ 0.01 and |r^2-1| ≥ 0.01, the
sequence `[1, r, r^2, r^3, r^4]` is classified `geometric` with successors
`[r^5, r^6, r^7]` and confidence 0.93.  (For r within 1e-4 of an integer
the complex-alternating detector fires first instead — see the
counterexample at r = 2 — and for r close to ±1 the with-step or arithmetic
detectors can fire.) -/
theorem C3_geometric_conditional (r : ℝ) (fuel : ℕ)
    (hInt : ∀ n : ℤ, tol ≤ |r - n|)
    (h1 : 1/100 ≤ |r - 1|) (h2 : 1/100 ≤ |r^2 - 1|) :
    predictSequence fuel [JS.fin 1, JS.fin r, JS.fin (r^2), JS.fin (r^3), JS.fin (r^4)] =
      some { nextElements := [JS.fin (r^5), JS.fin (r^6), JS.fin (r^7)],
             ruleType := RuleType.geometric,
             formula := FormulaT.geomF (JS.fin 1) (JS.fin (r/1)),
             confidence := 0.93 } := by
  have hr0 : r ≠ 0 := by
    intro h
    have h0 := hInt 0
    rw [h] at h0
    norm_num [tol] at h0
  have hr1 : r ≠ 1 := by
    intro h
    rw [h] at h1
    simp at h1
    linarith
  have hrn1 : r ≠ -1 := by
    intro h
    rw [h] at h2
    norm_num at h2
  have hlogr : Real.log r ≠ 0 := by
    intro hl
    rcases Real.log_eq_zero.mp hl with h | h | h
    exacts [hr0 h, hr1 h, hrn1 h]
  have hlogr2 : Real.log (r^2) ≠ 0 := by
    intro hl
    rcases Real.log_eq_zero.mp hl with h | h | h
    · exact pow_ne_zero 2 hr0 h
    · have hf : (r - 1) * (r + 1) = 0 := by linear_combination h
      rcases mul_eq_zero.mp hf with hz | hz
      · exact hr1 (by linarith)
      · exact hrn1 (by linarith)
    · nlinarith [sq_nonneg r]
  -- hop 0: ratio r/1 is not near an integer; the power test divides by
  -- log 1 = 0 and yields an infinity or NaN, so the hop is add:(r-1).
  have hop0 : hopOp (JS.fin 1) (JS.fin r) = COp.addOp (JS.fin (r + -1)) := by
    unfold hopOp
    rw [JS.div_fin_fin _ _ (by norm_num : (1:ℝ) ≠ 0)]
    rw [if_neg (by rw [div_one]; exact not_nearIntJS_of_far (fun n => hInt n))]
    rcases lt_trichotomy r 0 with hneg | hzero | hpos
    · rw [js_log_fin_neg hneg, js_div_nan_left, if_neg not_nearIntJS_nan, JS.sub_fin_fin]
    · exact absurd hzero hr0
    · rw [js_log_fin_pos hpos, js_log_fin_pos (by norm_num : (0:ℝ) < 1),
        js_div_fin_zero_den Real.log_one hlogr,
        if_neg (not_nearIntJS_ite_inf _), JS.sub_fin_fin]
  -- hop 2: ratio r^3/r^2 = r is not near an integer; for positive r the
  -- power test gives log(r^3)/log(r^2) = 3/2, which rounds to 2 and is not
  -- within tolerance; for negative r it is NaN.  Either way: add:(r^3-r^2).
  have hr32 : r^3 / r^2 = r := by
    rw [pow_succ]
    exact mul_div_cancel_left₀ r (pow_ne_zero 2 hr0)
  have hop2 : hopOp (JS.fin (r^2)) (JS.fin (r^3)) = COp.addOp (JS.fin (r^3 + -(r^2))) := by
    unfold hopOp
    rw [JS.div_fin_fin _ _ (pow_ne_zero 2 hr0)]
    rw [if_neg (by rw [hr32]; exact not_nearIntJS_of_far (fun n => hInt n))]
    rcases lt_trichotomy r 0 with hneg | hzero | hpos
    · have h2p : 0 < r^2 := by positivity
      have h3neg : r^3 < 0 := by
        rw [pow_succ]
        exact mul_neg_of_pos_of_neg h2p hneg
      rw [js_log_fin_neg h3neg, js_div_nan_left, if_neg not_nearIntJS_nan, JS.sub_fin_fin]
    · exact absurd hzero hr0
    · have h3pos : 0 < r^3 := by positivity
      have h2pos : 0 < r^2 := by positivity
      rw [js_log_fin_pos h3pos, js_log_fin_pos h2pos,
        JS.div_fin_fin _ _ hlogr2]
      have hq : Real.log (r^3) / Real.log (r^2) = 3/2 := by
        rw [show (3 : ℕ) = 3 from rfl] at *
        rw [Real.log_pow, Real.log_pow]
        field_simp
        ring
      rw [hq]
      rw [if_neg (by
        rw [nearIntJS_fin_iff (n := 2) (by norm_num) (by norm_num)]
        simp only [abs_lt, tol]
        intro hc
        rcases hc with ⟨hc1, hc2⟩
        norm_num at hc1 hc2), JS.sub_fin_fin]
  have hhops : hopOps [JS.fin 1, JS.fin r, JS.fin (r^2), JS.fin (r^3), JS.fin (r^4)] =
      [hopOp (JS.fin 1) (JS.fin r), hopOp (JS.fin r) (JS.fin (r^2)),
       hopOp (JS.fin (r^2)) (JS.fin (r^3)), hopOp (JS.fin (r^3)) (JS.fin (r^4))] := rfl
  have hoOps : atEvenIdx (hopOps [JS.fin 1, JS.fin r, JS.fin (r^2), JS.fin (r^3), JS.fin (r^4)]) =
      [COp.addOp (JS.fin (r + -1)), COp.addOp (JS.fin (r^3 + -(r^2)))] := by
    rw [hhops]
    simp only [atEvenIdx]
    rw [hop0, hop2]
  have hnc : ¬ (opsConsistent (atEvenIdx
        (hopOps [JS.fin 1, JS.fin r, JS.fin (r^2), JS.fin (r^3), JS.fin (r^4)])) ∧
      opsConsistent (atOddIdx
        (hopOps [JS.fin 1, JS.fin r, JS.fin (r^2), JS.fin (r^3), JS.fin (r^4)]))) := by
    rintro ⟨hc, -⟩
    have h2nd := hc (COp.addOp (JS.fin (r^3 + -(r^2)))) (by rw [hoOps]; simp)
    rw [hoOps] at h2nd
    simp only [List.headD, COp.addOp.injEq, JS.fin_inj] at h2nd
    have hfac : (r - 1) * (r^2 - 1) = 0 := by linear_combination h2nd
    rcases mul_eq_zero.mp hfac with hz | hz
    · rw [show r - 1 = 0 from hz] at h1
      norm_num at h1
    · rw [show r^2 - 1 = 0 from hz] at h2
      norm_num at h2
  have hcx : detectComplexAlternatingPattern
      [JS.fin 1, JS.fin r, JS.fin (r^2), JS.fin (r^3), JS.fin (r^4)] = none := by
    unfold detectComplexAlternatingPattern
    dsimp only []
    rw [if_pos (by simp), if_neg hnc]
  -- the with-step detector fails: the odd-position differences differ by
  -- (r^2-1)^2 ≥ 1e-4.
  have hdo : diffsJS (atEvenIdx [JS.fin 1, JS.fin r, JS.fin (r^2), JS.fin (r^3), JS.fin (r^4)]) =
      [JS.fin (r^2 + -1), JS.fin (r^4 + -(r^2))] := by
    simp [atEvenIdx, diffsJS]
  have hsq2 : (1/100 : ℝ)^2 ≤ (r^2 - 1)^2 := by
    rw [← sq_abs (r^2 - 1)]
    exact pow_le_pow_left (by norm_num) h2 2
  have hstep : detectAlternatingPatternWithStep
      [JS.fin 1, JS.fin r, JS.fin (r^2), JS.fin (r^3), JS.fin (r^4)] = none := by
    unfold detectAlternatingPatternWithStep
    dsimp only []
    rw [if_pos (by simp), if_pos (by constructor <;> simp [atEvenIdx, atOddIdx])]
    rw [if_neg ?_]
    rintro ⟨hodd, -⟩
    rw [hdo] at hodd
    unfold areAllValuesEqual at hodd
    rw [if_neg (by simp)] at hodd
    have hx := hodd (JS.fin (r^4 + -(r^2))) (by simp)
    have h0 : sGet [JS.fin (r^2 + -1), JS.fin (r^4 + -(r^2))] 0 = JS.fin (r^2 + -1) := rfl
    rw [h0] at hx
    simp only [JS.sub_fin_fin, JS.abs_fin, JS.lt_fin_fin, tol] at hx
    have habs : (r^4 + -(r^2)) + -(r^2 + -1) = (r^2 - 1)^2 := by ring
    rw [habs, abs_of_nonneg (sq_nonneg _)] at hx
    nlinarith
  -- the arithmetic check fails: the second difference differs from the
  -- first by (r-1)^2 ≥ 1e-4.
  have hsq1 : (1/100 : ℝ)^2 ≤ (r - 1)^2 := by
    rw [← sq_abs (r - 1)]
    exact pow_le_pow_left (by norm_num) h1 2
  have hdL : diffsJS [JS.fin 1, JS.fin r, JS.fin (r^2), JS.fin (r^3), JS.fin (r^4)] =
      [JS.fin (r + -1), JS.fin (r^2 + -r), JS.fin (r^3 + -(r^2)), JS.fin (r^4 + -(r^3))] := by
    simp [diffsJS]
  have harith : ¬ checkArithmeticSequence
      [JS.fin 1, JS.fin r, JS.fin (r^2), JS.fin (r^3), JS.fin (r^4)] := by
    rintro ⟨-, hall⟩
    have hx := hall (JS.fin (r^2 + -r)) (by rw [hdL]; simp)
    rw [hdL] at hx
    have h0 : sGet [JS.fin (r + -1), JS.fin (r^2 + -r), JS.fin (r^3 + -(r^2)),
        JS.fin (r^4 + -(r^3))] 0 = JS.fin (r + -1) := rfl
    rw [h0] at hx
    simp only [JS.sub_fin_fin, JS.abs_fin, JS.lt_fin_fin, tol] at hx
    have habs : (r^2 + -r) + -(r + -1) = (r - 1)^2 := by ring
    rw [habs, abs_of_nonneg (sq_nonneg _)] at hx
    nlinarith
  -- the geometric check succeeds: all four guarded ratios equal r.
  have q1 : r^2 / r = r := by
    rw [sq]
    exact mul_div_cancel_left₀ r hr0
  have q2 : r^3 / r^2 = r := hr32
  have q3 : r^4 / r^3 = r := by
    rw [pow_succ]
    exact mul_div_cancel_left₀ r (pow_ne_zero 3 hr0)
  have hrat : ratiosJS [JS.fin 1, JS.fin r, JS.fin (r^2), JS.fin (r^3), JS.fin (r^4)] =
      [JS.fin (r/1), JS.fin (r^2/r), JS.fin (r^3/r^2), JS.fin (r^4/r^3)] := by
    simp only [ratiosJS, List.drop, List.zipWith]
    rw [if_neg (by simp), if_neg (by simp [hr0]),
      if_neg (by simp [pow_ne_zero 2 hr0]), if_neg (by simp [pow_ne_zero 3 hr0])]
    rw [JS.div_fin_fin _ _ (by norm_num : (1:ℝ) ≠ 0), JS.div_fin_fin _ _ hr0,
      JS.div_fin_fin _ _ (pow_ne_zero 2 hr0), JS.div_fin_fin _ _ (pow_ne_zero 3 hr0)]
  have hgeom : checkGeometricSequence
      [JS.fin 1, JS.fin r, JS.fin (r^2), JS.fin (r^3), JS.fin (r^4)] := by
    refine ⟨by simp, ?_, ?_⟩
    · rw [hrat]
      intro h
      cases h
    · rw [hrat]
      intro x hx
      have h0 : sGet [JS.fin (r/1), JS.fin (r^2/r), JS.fin (r^3/r^2), JS.fin (r^4/r^3)] 0
          = JS.fin (r/1) := rfl
      rw [h0]
      simp only [List.mem_cons, List.not_mem_nil, or_false] at hx
      rcases hx with rfl | rfl | rfl | rfl
      · exact ⟨fun h => JS.noConfusion h, lt_tol_of_eq rfl⟩
      · exact ⟨fun h => JS.noConfusion h, lt_tol_of_eq (by rw [q1, div_one])⟩
      · exact ⟨fun h => JS.noConfusion h, lt_tol_of_eq (by rw [q2, div_one])⟩
      · exact ⟨fun h => JS.noConfusion h, lt_tol_of_eq (by rw [q3, div_one])⟩
  unfold predictSequence
  rw [if_neg (by simp), hcx]
  dsimp only []
  rw [detectAlternatingDifferencePattern_short (by simp)]
  dsimp only []
  rw [if_neg (checkSpecificPattern7108_short (by simp)), hstep]
  dsimp only []
  rw [if_neg harith, if_pos hgeom]
  have hs0 : sGet [JS.fin 1, JS.fin r, JS.fin (r^2), JS.fin (r^3), JS.fin (r^4)] 0
      = JS.fin 1 := rfl
  have hs1 : sGet [JS.fin 1, JS.fin r, JS.fin (r^2), JS.fin (r^3), JS.fin (r^4)] 1
      = JS.fin r := rfl
  have hs4 : sGet [JS.fin 1, JS.fin r, JS.fin (r^2), JS.fin (r^3), JS.fin (r^4)]
      ([JS.fin 1, JS.fin r, JS.fin (r^2), JS.fin (r^3), JS.fin (r^4)].length - 1)
      = JS.fin (r^4) := rfl
  rw [hs0, hs1, hs4, JS.div_fin_fin _ _ (by norm_num : (1:ℝ) ≠ 0),
    js_powInt_fin_two, js_powInt_fin_three]
  simp only [JS.mul_fin_fin, Option.some.injEq, PredictionResult.mk.injEq,
    List.cons.injEq, JS.fin_inj, div_one, and_true, true_and]
  refine ⟨?_, ?_, ?_⟩ <;> ring

/-- C3 witness: the amended theorem applied at r = 5/2 (far from every
integer and from ±1). -/
theorem C3_geometric_conditional_witness :
    predictSequence 0 [JS.fin 1, JS.fin (5/2 : ℝ), JS.fin ((5/2 : ℝ)^2),
        JS.fin ((5/2 : ℝ)^3), JS.fin ((5/2 : ℝ)^4)] =
      some { nextElements := [JS.fin ((5/2 : ℝ)^5), JS.fin ((5/2 : ℝ)^6),
               JS.fin ((5/2 : ℝ)^7)],
             ruleType := RuleType.geometric,
             formula := FormulaT.geomF (JS.fin 1) (JS.fin ((5/2 : ℝ)/1)),
             confidence := 0.93 } :=
  C3_geometric_conditional (5/2) 0
    (fun n => by
      rcases le_or_lt n 2 with hn | hn
      · have hcast : (n : ℝ) ≤ 2 := by exact_mod_cast hn
        rw [abs_of_nonneg (by linarith), tol]
        linarith
      · have hcast : (3 : ℝ) ≤ (n : ℝ) := by exact_mod_cast hn
        rw [abs_of_nonpos (by linarith), tol]
        linarith)
    (by rw [show (5/2 : ℝ) - 1 = 3/2 by norm_num,
          abs_of_nonneg (by norm_num : (0:ℝ) ≤ 3/2)]
        norm_num)
    (by rw [show (5/2 : ℝ)^2 - 1 = 21/4 by norm_num,
          abs_of_nonneg (by norm_num : (0:ℝ) ≤ 21/4)]
        norm_num)

theorem js_sqrt_neg {a : ℝ} (h : a < 0) : JS.sqrt (JS.fin a) = JS.nan := by
  simp only [JS.sqrt]
  rw [if_pos h]

theorem js_powInt_nan {n : ℤ} (hn : n ≠ 0) : JS.powInt JS.nan n = JS.nan := by
  simp only [JS.powInt]
  rw [if_neg hn]

/-- C4: the all-negative input `[-1, -4, -6]` matches no earlier detector,
passes `checkSquareSequence` vacuously (`Math.sqrt` of a negative number is
NaN and the `> tolerance` comparison with NaN is false), and the square
branch then returns `[NaN, NaN, NaN]` as nextElements — contradicting the
claim that nextElements are always real numbers, never NaN. -/
theorem C4_square_nan :
    predictSequence 0 [JS.fin (-1), JS.fin (-4), JS.fin (-6)] =
      some { nextElements := [JS.nan, JS.nan, JS.nan],
             ruleType := RuleType.square, formula := FormulaT.squareF,
             confidence := 0.92 } := by
  have hd : diffsJS [JS.fin (-1), JS.fin (-4), JS.fin (-6)] =
      [JS.fin ((-4 : ℝ) + -(-1)), JS.fin ((-6 : ℝ) + -(-4))] := by
    simp [diffsJS]
  have harith : ¬ checkArithmeticSequence [JS.fin (-1), JS.fin (-4), JS.fin (-6)] := by
    rintro ⟨-, hall⟩
    have hx := hall (JS.fin ((-6 : ℝ) + -(-4))) (by rw [hd]; simp)
    rw [hd] at hx
    have h0 : sGet [JS.fin ((-4 : ℝ) + -(-1)), JS.fin ((-6 : ℝ) + -(-4))] 0 =
        JS.fin ((-4 : ℝ) + -(-1)) := rfl
    rw [h0] at hx
    simp only [JS.sub_fin_fin, JS.abs_fin, JS.lt_fin_fin, tol] at hx
    rw [show ((-6 : ℝ) + -(-4)) + -((-4 : ℝ) + -(-1)) = 1 by ring, abs_one] at hx
    norm_num at hx
  have hrat : ratiosJS [JS.fin (-1), JS.fin (-4), JS.fin (-6)] =
      [JS.fin ((-4 : ℝ)/(-1)), JS.fin ((-6 : ℝ)/(-4))] := by
    simp only [ratiosJS, List.drop, List.zipWith]
    rw [if_neg (by simp only [JS.fin_inj]; norm_num),
      if_neg (by simp only [JS.fin_inj]; norm_num)]
    rw [JS.div_fin_fin _ _ (by norm_num), JS.div_fin_fin _ _ (by norm_num)]
  have hgeomF : ¬ checkGeometricSequence [JS.fin (-1), JS.fin (-4), JS.fin (-6)] := by
    rintro ⟨-, -, hall⟩
    have hx := (hall (JS.fin ((-6 : ℝ)/(-4))) (by rw [hrat]; simp)).2
    rw [hrat] at hx
    have h0 : sGet [JS.fin ((-4 : ℝ)/(-1)), JS.fin ((-6 : ℝ)/(-4))] 0 =
        JS.fin ((-4 : ℝ)/(-1)) := rfl
    rw [h0] at hx
    simp only [JS.sub_fin_fin, JS.abs_fin, JS.lt_fin_fin, tol] at hx
    rw [show ((-6 : ℝ)/(-4)) + -((-4 : ℝ)/(-1)) = -(5/2) by norm_num, abs_neg,
      abs_of_nonneg (by norm_num : (0:ℝ) ≤ 5/2)] at hx
    norm_num at hx
  have hfib : ¬ checkFibonacciSequence [JS.fin (-1), JS.fin (-4), JS.fin (-6)] := by
    rintro ⟨-, hall⟩
    apply hall 2 (by norm_num) (by norm_num)
    show JS.lt (JS.fin tol) (JS.abs (JS.sub (JS.fin (-6)) (JS.add (JS.fin (-4)) (JS.fin (-1)))))
    simp only [JS.add_fin_fin, JS.sub_fin_fin, JS.abs_fin, JS.lt_fin_fin, tol]
    rw [show ((-6 : ℝ)) + -((-4) + -1) = -1 by ring, abs_neg, abs_one]
    norm_num
  have hsquare : checkSquareSequence [JS.fin (-1), JS.fin (-4), JS.fin (-6)] := by
    refine ⟨by simp, ?_⟩
    intro i hi
    have hce : i = 0 ∨ i = 1 ∨ i = 2 := by
      simp only [List.length_cons, List.length_nil] at hi
      omega
    rcases hce with rfl | rfl | rfl
    · rw [show sGet [JS.fin (-1), JS.fin (-4), JS.fin (-6)] 0 = JS.fin (-1) from rfl,
        js_sqrt_neg (by norm_num : (-1 : ℝ) < 0)]
      simp
    · rw [show sGet [JS.fin (-1), JS.fin (-4), JS.fin (-6)] 1 = JS.fin (-4) from rfl,
        js_sqrt_neg (by norm_num : (-4 : ℝ) < 0)]
      simp
    · rw [show sGet [JS.fin (-1), JS.fin (-4), JS.fin (-6)] 2 = JS.fin (-6) from rfl,
        js_sqrt_neg (by norm_num : (-6 : ℝ) < 0)]
      simp
  unfold predictSequence
  rw [if_neg (by simp), detectComplexAlternatingPattern_short (by simp)]
  dsimp only []
  rw [detectAlternatingDifferencePattern_short (by simp)]
  dsimp only []
  rw [if_neg (checkSpecificPattern7108_short (by simp)),
    detectAlternatingPatternWithStep_short (by simp)]
  dsimp only []
  rw [if_neg harith, if_neg hgeomF, if_neg hfib, if_pos hsquare]
  rw [show sGet [JS.fin (-1), JS.fin (-4), JS.fin (-6)]
      ([JS.fin (-1), JS.fin (-4), JS.fin (-6)].length - 1) = JS.fin (-6) from rfl,
    js_sqrt_neg (by norm_num : (-6 : ℝ) < 0)]
  simp only [JS.add_nan_left, js_powInt_nan (by norm_num : (2:ℤ) ≠ 0)]

/-- C5: `[1, 1, 2, 3, 5, 8]` is classified `fibonacci` with confidence 0.9
and successors `[13, 21, 21]` — the third successor is `2*8+5 = 21`, equal
to the second successor and not the pure-recurrence value `13+21 = 34`. -/
theorem C5_fibonacci_quirk :
    predictSequence 0 [JS.fin 1, JS.fin 1, JS.fin 2, JS.fin 3, JS.fin 5, JS.fin 8] =
      some { nextElements := [JS.fin 13, JS.fin 21, JS.fin 21],
             ruleType := RuleType.fibonacci, formula := FormulaT.fibF,
             confidence := 0.9 } ∧
    (13 : ℝ) = 8 + 5 ∧ (21 : ℝ) = 8 + 5 + 8 ∧ (21 : ℝ) = 2 * 8 + 5 ∧
    (21 : ℝ) ≠ 13 + 21 := by
  have hm11 : nearIntJS (JS.fin ((1 : ℝ) / 1)) := by
    rw [nearIntJS_fin_iff (n := 1) (by norm_num) (by norm_num)]
    simp only [abs_lt, tol]
    constructor <;> norm_num
  have hop0eq : hopOp (JS.fin 1) (JS.fin 1) = COp.mulOp 1 := by
    rw [hopOp_mulOp (by norm_num) hm11, roundI_fin_eq (n := 1) (by norm_num) (by norm_num)]
  have hmul32 : ¬ nearIntJS (JS.fin ((3 : ℝ) / 2)) := by
    rw [nearIntJS_fin_iff (n := 2) (by norm_num) (by norm_num)]
    simp only [abs_lt, tol]
    intro hc
    rcases hc with ⟨hc1, hc2⟩
    norm_num at hc1 hc2
  have hop2ne : hopOp (JS.fin 2) (JS.fin 3) ≠ COp.mulOp 1 := by
    unfold hopOp
    rw [JS.div_fin_fin _ _ (by norm_num : (2:ℝ) ≠ 0), if_neg hmul32]
    split
    · exact fun h => COp.noConfusion h
    · exact fun h => COp.noConfusion h
  have hhops : hopOps [JS.fin 1, JS.fin 1, JS.fin 2, JS.fin 3, JS.fin 5, JS.fin 8] =
      [hopOp (JS.fin 1) (JS.fin 1), hopOp (JS.fin 1) (JS.fin 2),
       hopOp (JS.fin 2) (JS.fin 3), hopOp (JS.fin 3) (JS.fin 5),
       hopOp (JS.fin 5) (JS.fin 8)] := rfl
  have hoList : atEvenIdx (hopOps [JS.fin 1, JS.fin 1, JS.fin 2, JS.fin 3, JS.fin 5, JS.fin 8]) =
      [COp.mulOp 1, hopOp (JS.fin 2) (JS.fin 3), hopOp (JS.fin 5) (JS.fin 8)] := by
    rw [hhops]
    simp only [atEvenIdx]
    rw [hop0eq]
  have hcx : detectComplexAlternatingPattern
      [JS.fin 1, JS.fin 1, JS.fin 2, JS.fin 3, JS.fin 5, JS.fin 8] = none := by
    unfold detectComplexAlternatingPattern
    dsimp only []
    rw [if_pos (by simp), if_neg ?_]
    rintro ⟨hc, -⟩
    have h2 := hc (hopOp (JS.fin 2) (JS.fin 3)) (by rw [hoList]; simp)
    rw [hoList] at h2
    simp only [List.headD] at h2
    exact hop2ne h2
  have hds : diffsJS [JS.fin 1, JS.fin 1, JS.fin 2, JS.fin 3, JS.fin 5, JS.fin 8] =
      [JS.fin ((1:ℝ) + -1), JS.fin ((2:ℝ) + -1), JS.fin ((3:ℝ) + -2),
       JS.fin ((5:ℝ) + -3), JS.fin ((8:ℝ) + -5)] := by
    simp [diffsJS]
  have hadp : detectAlternatingDifferencePattern
      [JS.fin 1, JS.fin 1, JS.fin 2, JS.fin 3, JS.fin 5, JS.fin 8] = none := by
    unfold detectAlternatingDifferencePattern
    dsimp only []
    rw [if_pos (by simp), hds]
    rw [if_neg ?_, if_neg ?_, if_neg ?_]
    · rintro ⟨h8, -⟩
      simp only [List.length_cons, List.length_nil] at h8
      omega
    · rintro ⟨h6, -⟩
      simp only [List.length_cons, List.length_nil] at h6
      omega
    · rintro ⟨-, hm⟩
      apply hm 2 (by norm_num) (by simp)
      show JS.lt (JS.fin tol) (JS.abs (JS.sub (JS.fin ((3:ℝ) + -2)) (JS.fin ((1:ℝ) + -1))))
      simp only [JS.sub_fin_fin, JS.abs_fin, JS.lt_fin_fin, tol]
      rw [show ((3:ℝ) + -2) + -((1:ℝ) + -1) = 1 by ring, abs_one]
      norm_num
  have hdo : diffsJS (atEvenIdx [JS.fin 1, JS.fin 1, JS.fin 2, JS.fin 3, JS.fin 5, JS.fin 8]) =
      [JS.fin ((2:ℝ) + -1), JS.fin ((5:ℝ) + -2)] := by
    simp [atEvenIdx, diffsJS]
  have hoddne : ¬ areAllValuesEqual
      (diffsJS (atEvenIdx [JS.fin 1, JS.fin 1, JS.fin 2, JS.fin 3, JS.fin 5, JS.fin 8])) := by
    rw [hdo]
    intro hall
    unfold areAllValuesEqual at hall
    rw [if_neg (by simp)] at hall
    have hx := hall (JS.fin ((5:ℝ) + -2)) (by simp)
    have h0 : sGet [JS.fin ((2:ℝ) + -1), JS.fin ((5:ℝ) + -2)] 0 = JS.fin ((2:ℝ) + -1) := rfl
    rw [h0] at hx
    simp only [JS.sub_fin_fin, JS.abs_fin, JS.lt_fin_fin, tol] at hx
    rw [show ((5:ℝ) + -2) + -((2:ℝ) + -1) = 2 by ring] at hx
    rw [show |(2:ℝ)| = 2 by rw [abs_of_nonneg]; norm_num] at hx
    norm_num at hx
  have h7108 : ¬ checkSpecificPattern7108
      [JS.fin 1, JS.fin 1, JS.fin 2, JS.fin 3, JS.fin 5, JS.fin 8] := by
    rintro ⟨-, ⟨hodd, -⟩, -, -⟩
    exact hoddne hodd
  have hstep : detectAlternatingPatternWithStep
      [JS.fin 1, JS.fin 1, JS.fin 2, JS.fin 3, JS.fin 5, JS.fin 8] = none := by
    unfold detectAlternatingPatternWithStep
    dsimp only []
    rw [if_pos (by simp), if_pos (by constructor <;> simp [atEvenIdx, atOddIdx])]
    rw [if_neg ?_]
    rintro ⟨hodd, -⟩
    exact hoddne hodd
  have harith : ¬ checkArithmeticSequence
      [JS.fin 1, JS.fin 1, JS.fin 2, JS.fin 3, JS.fin 5, JS.fin 8] := by
    rintro ⟨-, hall⟩
    have hx := hall (JS.fin ((2:ℝ) + -1)) (by rw [hds]; simp)
    rw [hds] at hx
    have h0 : sGet [JS.fin ((1:ℝ) + -1), JS.fin ((2:ℝ) + -1), JS.fin ((3:ℝ) + -2),
        JS.fin ((5:ℝ) + -3), JS.fin ((8:ℝ) + -5)] 0 = JS.fin ((1:ℝ) + -1) := rfl
    rw [h0] at hx
    simp only [JS.sub_fin_fin, JS.abs_fin, JS.lt_fin_fin, tol] at hx
    rw [show ((2:ℝ) + -1) + -((1:ℝ) + -1) = 1 by ring, abs_one] at hx
    norm_num at hx
  have hrat : ratiosJS [JS.fin 1, JS.fin 1, JS.fin 2, JS.fin 3, JS.fin 5, JS.fin 8] =
      [JS.fin ((1:ℝ)/1), JS.fin ((2:ℝ)/1), JS.fin ((3:ℝ)/2),
       JS.fin ((5:ℝ)/3), JS.fin ((8:ℝ)/5)] := by
    simp only [ratiosJS, List.drop, List.zipWith]
    rw [if_neg (by simp only [JS.fin_inj]; norm_num),
      if_neg (by simp only [JS.fin_inj]; norm_num),
      if_neg (by simp only [JS.fin_inj]; norm_num),
      if_neg (by simp only [JS.fin_inj]; norm_num),
      if_neg (by simp only [JS.fin_inj]; norm_num)]
    rw [JS.div_fin_fin _ _ (by norm_num), JS.div_fin_fin _ _ (by norm_num),
      JS.div_fin_fin _ _ (by norm_num), JS.div_fin_fin _ _ (by norm_num),
      JS.div_fin_fin _ _ (by norm_num)]
  have hgeomF : ¬ checkGeometricSequence
      [JS.fin 1, JS.fin 1, JS.fin 2, JS.fin 3, JS.fin 5, JS.fin 8] := by
    rintro ⟨-, -, hall⟩
    have hx := (hall (JS.fin ((2:ℝ)/1)) (by rw [hrat]; simp)).2
    rw [hrat] at hx
    have h0 : sGet [JS.fin ((1:ℝ)/1), JS.fin ((2:ℝ)/1), JS.fin ((3:ℝ)/2),
        JS.fin ((5:ℝ)/3), JS.fin ((8:ℝ)/5)] 0 = JS.fin ((1:ℝ)/1) := rfl
    rw [h0] at hx
    simp only [JS.sub_fin_fin, JS.abs_fin, JS.lt_fin_fin, tol] at hx
    rw [show ((2:ℝ)/1) + -((1:ℝ)/1) = 1 by norm_num, abs_one] at hx
    norm_num at hx
  have hfib : checkFibonacciSequence
      [JS.fin 1, JS.fin 1, JS.fin 2, JS.fin 3, JS.fin 5, JS.fin 8] := by
    refine ⟨by simp, ?_⟩
    intro i h2 hi
    simp only [List.length_cons, List.length_nil] at hi
    have hce : i = 2 ∨ i = 3 ∨ i = 4 ∨ i = 5 := by omega
    rcases hce with rfl | rfl | rfl | rfl
    · show ¬ JS.lt (JS.fin tol) (JS.abs (JS.sub (JS.fin 2) (JS.add (JS.fin 1) (JS.fin 1))))
      simp only [JS.add_fin_fin, JS.sub_fin_fin, JS.abs_fin, JS.lt_fin_fin, tol]
      rw [show (2:ℝ) + -((1:ℝ) + 1) = 0 by ring, abs_zero]
      norm_num
    · show ¬ JS.lt (JS.fin tol) (JS.abs (JS.sub (JS.fin 3) (JS.add (JS.fin 2) (JS.fin 1))))
      simp only [JS.add_fin_fin, JS.sub_fin_fin, JS.abs_fin, JS.lt_fin_fin, tol]
      rw [show (3:ℝ) + -((2:ℝ) + 1) = 0 by ring, abs_zero]
      norm_num
    · show ¬ JS.lt (JS.fin tol) (JS.abs (JS.sub (JS.fin 5) (JS.add (JS.fin 3) (JS.fin 2))))
      simp only [JS.add_fin_fin, JS.sub_fin_fin, JS.abs_fin, JS.lt_fin_fin, tol]
      rw [show (5:ℝ) + -((3:ℝ) + 2) = 0 by ring, abs_zero]
      norm_num
    · show ¬ JS.lt (JS.fin tol) (JS.abs (JS.sub (JS.fin 8) (JS.add (JS.fin 5) (JS.fin 3))))
      simp only [JS.add_fin_fin, JS.sub_fin_fin, JS.abs_fin, JS.lt_fin_fin, tol]
      rw [show (8:ℝ) + -((5:ℝ) + 3) = 0 by ring, abs_zero]
      norm_num
  refine ⟨?_, by norm_num, by norm_num, by norm_num, by norm_num⟩
  unfold predictSequence
  rw [if_neg (by simp), hcx]
  dsimp only []
  rw [hadp]
  dsimp only []
  rw [if_neg h7108, hstep]
  dsimp only []
  rw [if_neg harith, if_neg hgeomF, if_pos hfib]
  simp only [show sGet [JS.fin 1, JS.fin 1, JS.fin 2, JS.fin 3, JS.fin 5, JS.fin 8]
      ([JS.fin 1, JS.fin 1, JS.fin 2, JS.fin 3, JS.fin 5, JS.fin 8].length - 1) =
      JS.fin 8 from rfl,
    show sGet [JS.fin 1, JS.fin 1, JS.fin 2, JS.fin 3, JS.fin 5, JS.fin 8]
      ([JS.fin 1, JS.fin 1, JS.fin 2, JS.fin 3, JS.fin 5, JS.fin 8].length - 2) =
      JS.fin 5 from rfl,
    JS.add_fin_fin, JS.mul_fin_fin, Option.some.injEq, PredictionResult.mk.injEq,
    List.cons.injEq, JS.fin_inj, and_true, true_and]
  norm_num

theorem powSearch_none {l : List JS} (hpm : ∀ b, ¬ powMatchBase l b) :
    ∀ b, powSearch l b = none := by
  have key : ∀ k b, 11 - b ≤ k → powSearch l b = none := by
    intro k
    induction k with
    | zero =>
        intro b hb
        rw [powSearch, dif_neg (by omega)]
    | succ k ih =>
        intro b hb
        rw [powSearch]
        split
        · rw [if_neg (hpm b)]
          exact ih (b+1) (by omega)
        · rfl
  exact fun b => key 11 b (by omega)

theorem js_sqrt_nonneg_arg {a : ℝ} (h : ¬ a < 0) :
    JS.sqrt (JS.fin a) = JS.fin (Real.sqrt a) := by
  simp only [JS.sqrt]
  rw [if_neg h]

theorem realCbrt_nonneg_def {x : ℝ} (hx : 0 ≤ x) :
    JS.realCbrt x = x ^ ((1 : ℝ)/3) := by
  unfold JS.realCbrt
  rw [if_neg (not_lt.mpr hx)]

theorem realCbrt_cube {x : ℝ} (hx : 0 ≤ x) :
    (JS.realCbrt x) ^ (3 : ℕ) = x := by
  rw [realCbrt_nonneg_def hx, ← Real.rpow_natCast (x ^ ((1:ℝ)/3)) 3,
    ← Real.rpow_mul hx]
  norm_num

theorem lt_realCbrt {x c : ℝ} (hx : 0 ≤ x) (hc : 0 ≤ c) (h : c^3 < x) :
    c < JS.realCbrt x := by
  by_contra hle
  push_neg at hle
  have h1 : (JS.realCbrt x)^3 ≤ c^3 :=
    pow_le_pow_left (by rw [realCbrt_nonneg_def hx]; positivity) hle 3
  rw [realCbrt_cube hx] at h1
  linarith

theorem realCbrt_lt {x c : ℝ} (hx : 0 ≤ x) (hc : 0 ≤ c) (h : x < c^3) :
    JS.realCbrt x < c := by
  by_contra hle
  push_neg at hle
  have h1 : c^3 ≤ (JS.realCbrt x)^3 :=
    pow_le_pow_left hc hle 3
  rw [realCbrt_cube hx] at h1
  linarith

/-- C1: the input `[1/2, 3/2, 7/2]` (finite, non-integer reals) reaches the
consecutive-even/odd branch — every element is "odd" in the JS sense since
`x % 2 === 0` only holds for even integers — whose parity `while` loop then
searches for an even integer above 9/2 and never finds one: predictSequence
diverges, for every fuel bound, so the engine is not total. -/
theorem C1_parity_loop_diverges (fuel : ℕ) :
    predictSequence fuel [JS.fin (1/2 : ℝ), JS.fin (3/2 : ℝ), JS.fin (7/2 : ℝ)] =
      none := by
  have h05 : ¬ JS.isEvenNum (JS.fin (1/2 : ℝ)) := by
    rintro ⟨n, hn⟩
    have hz : (1 : ℤ) = 4 * n := by exact_mod_cast (by linarith : (1:ℝ) = 4 * n)
    omega
  have h15 : ¬ JS.isEvenNum (JS.fin (3/2 : ℝ)) := by
    rintro ⟨n, hn⟩
    have hz : (3 : ℤ) = 4 * n := by exact_mod_cast (by linarith : (3:ℝ) = 4 * n)
    omega
  have h72 : ¬ JS.isEvenNum (JS.fin (7/2 : ℝ)) := by
    rintro ⟨n, hn⟩
    have hz : (7 : ℤ) = 4 * n := by exact_mod_cast (by linarith : (7:ℝ) = 4 * n)
    omega
  have hd : diffsJS [JS.fin (1/2 : ℝ), JS.fin (3/2 : ℝ), JS.fin (7/2 : ℝ)] =
      [JS.fin ((3/2 : ℝ) + -(1/2)), JS.fin ((7/2 : ℝ) + -(3/2))] := by
    simp [diffsJS]
  have harith : ¬ checkArithmeticSequence
      [JS.fin (1/2 : ℝ), JS.fin (3/2 : ℝ), JS.fin (7/2 : ℝ)] := by
    rintro ⟨-, hall⟩
    have hx := hall (JS.fin ((7/2 : ℝ) + -(3/2))) (by rw [hd]; simp)
    rw [hd] at hx
    have h0 : sGet [JS.fin ((3/2 : ℝ) + -(1/2)), JS.fin ((7/2 : ℝ) + -(3/2))] 0 =
        JS.fin ((3/2 : ℝ) + -(1/2)) := rfl
    rw [h0] at hx
    simp only [JS.sub_fin_fin, JS.abs_fin, JS.lt_fin_fin, tol] at hx
    rw [show ((7/2 : ℝ) + -(3/2)) + -((3/2 : ℝ) + -(1/2)) = 1 by ring, abs_one] at hx
    norm_num at hx
  have hrat : ratiosJS [JS.fin (1/2 : ℝ), JS.fin (3/2 : ℝ), JS.fin (7/2 : ℝ)] =
      [JS.fin ((3/2 : ℝ)/(1/2)), JS.fin ((7/2 : ℝ)/(3/2))] := by
    simp only [ratiosJS, List.drop, List.zipWith]
    rw [if_neg (by simp only [JS.fin_inj]; norm_num),
      if_neg (by simp only [JS.fin_inj]; norm_num)]
    rw [JS.div_fin_fin _ _ (by norm_num), JS.div_fin_fin _ _ (by norm_num)]
  have hgeomF : ¬ checkGeometricSequence
      [JS.fin (1/2 : ℝ), JS.fin (3/2 : ℝ), JS.fin (7/2 : ℝ)] := by
    rintro ⟨-, -, hall⟩
    have hx := (hall (JS.fin ((7/2 : ℝ)/(3/2))) (by rw [hrat]; simp)).2
    rw [hrat] at hx
    have h0 : sGet [JS.fin ((3/2 : ℝ)/(1/2)), JS.fin ((7/2 : ℝ)/(3/2))] 0 =
        JS.fin ((3/2 : ℝ)/(1/2)) := rfl
    rw [h0] at hx
    simp only [JS.sub_fin_fin, JS.abs_fin, JS.lt_fin_fin, tol] at hx
    rw [show ((7/2 : ℝ)/(3/2)) + -((3/2 : ℝ)/(1/2)) = -(2/3) by norm_num, abs_neg,
      abs_of_nonneg (by norm_num : (0:ℝ) ≤ 2/3)] at hx
    norm_num at hx
  have hfibF : ¬ checkFibonacciSequence
      [JS.fin (1/2 : ℝ), JS.fin (3/2 : ℝ), JS.fin (7/2 : ℝ)] := by
    rintro ⟨-, hall⟩
    apply hall 2 (by norm_num) (by norm_num)
    show JS.lt (JS.fin tol)
      (JS.abs (JS.sub (JS.fin (7/2)) (JS.add (JS.fin (3/2)) (JS.fin (1/2)))))
    simp only [JS.add_fin_fin, JS.sub_fin_fin, JS.abs_fin, JS.lt_fin_fin, tol]
    rw [show (7/2 : ℝ) + -((3/2 : ℝ) + 1/2) = 3/2 by ring,
      abs_of_nonneg (by norm_num : (0:ℝ) ≤ 3/2)]
    norm_num
  have hs1 : (7/10 : ℝ) < Real.sqrt (1/2) :=
    (Real.lt_sqrt (by norm_num)).mpr (by norm_num)
  have hs2 : Real.sqrt (1/2) < 71/100 :=
    (Real.sqrt_lt' (by norm_num)).mpr (by norm_num)
  have hsqF : ¬ checkSquareSequence
      [JS.fin (1/2 : ℝ), JS.fin (3/2 : ℝ), JS.fin (7/2 : ℝ)] := by
    rintro ⟨-, hall⟩
    apply hall 0 (by simp)
    show JS.lt (JS.fin tol)
      (JS.abs (JS.sub (JS.round (JS.sqrt (JS.fin (1/2)))) (JS.sqrt (JS.fin (1/2)))))
    rw [js_sqrt_nonneg_arg (by norm_num), round_fin_eq (n := 1) (by linarith) (by linarith)]
    simp only [JS.sub_fin_fin, JS.abs_fin, JS.lt_fin_fin, tol]
    rw [abs_of_nonneg (by push_cast; linarith)]
    push_cast
    linarith
  have hc1 : (79/100 : ℝ) < JS.realCbrt (1/2) :=
    lt_realCbrt (by norm_num) (by norm_num) (by norm_num)
  have hc2 : JS.realCbrt (1/2) < 8/10 :=
    realCbrt_lt (by norm_num) (by norm_num) (by norm_num)
  have hcubeF : ¬ checkCubeSequence
      [JS.fin (1/2 : ℝ), JS.fin (3/2 : ℝ), JS.fin (7/2 : ℝ)] := by
    rintro ⟨-, hall⟩
    apply hall 0 (by simp)
    show JS.lt (JS.fin tol)
      (JS.abs (JS.sub (JS.round (JS.cbrt (JS.fin (1/2)))) (JS.cbrt (JS.fin (1/2)))))
    show JS.lt (JS.fin tol)
      (JS.abs (JS.sub (JS.round (JS.fin (JS.realCbrt (1/2)))) (JS.fin (JS.realCbrt (1/2)))))
    rw [round_fin_eq (n := 1) (by linarith) (by linarith)]
    simp only [JS.sub_fin_fin, JS.abs_fin, JS.lt_fin_fin, tol]
    rw [abs_of_nonneg (by push_cast; linarith)]
    push_cast
    linarith
  have hpm : ∀ b, ¬ powMatchBase
      [JS.fin (1/2 : ℝ), JS.fin (3/2 : ℝ), JS.fin (7/2 : ℝ)] b := by
    intro b hb
    have hx := hb 0 (by simp)
    rw [show sGet [JS.fin (1/2 : ℝ), JS.fin (3/2 : ℝ), JS.fin (7/2 : ℝ)] 0 =
      JS.fin (1/2 : ℝ) from rfl, pow_zero] at hx
    simp only [JS.sub_fin_fin, JS.abs_fin, JS.lt_fin_fin, tol] at hx
    rw [show (1/2 : ℝ) + -1 = -(1/2) by ring, abs_neg,
      abs_of_nonneg (by norm_num : (0:ℝ) ≤ 1/2)] at hx
    norm_num at hx
  have hpow : checkPowerSequence
      [JS.fin (1/2 : ℝ), JS.fin (3/2 : ℝ), JS.fin (7/2 : ℝ)] = none := by
    unfold checkPowerSequence
    rw [if_pos (by simp)]
    exact powSearch_none hpm 2
  have hrun : parityRun (JS.isEvenNum (JS.fin (1/2 : ℝ)))
      [JS.fin (3/2 : ℝ), JS.fin (7/2 : ℝ)] = 2 := by
    rw [parityRun, if_pos (iff_of_false h15 h05), parityRun,
      if_pos (iff_of_false h72 h05), parityRun]
  have hconsec : checkConsecutiveEvenOddPattern
      [JS.fin (1/2 : ℝ), JS.fin (3/2 : ℝ), JS.fin (7/2 : ℝ)] =
      some (StartType.oddFirst, 3) := by
    unfold checkConsecutiveEvenOddPattern
    dsimp only []
    rw [show sGet [JS.fin (1/2 : ℝ), JS.fin (3/2 : ℝ), JS.fin (7/2 : ℝ)] 0 =
        JS.fin (1/2 : ℝ) from rfl,
      show sGet [JS.fin (1/2 : ℝ), JS.fin (3/2 : ℝ), JS.fin (7/2 : ℝ)] 1 =
        JS.fin (3/2 : ℝ) from rfl,
      show List.drop 1 [JS.fin (1/2 : ℝ), JS.fin (3/2 : ℝ), JS.fin (7/2 : ℝ)] =
        [JS.fin (3/2 : ℝ), JS.fin (7/2 : ℝ)] from rfl]
    rw [if_pos (by simp), if_pos (iff_of_false h05 h15), if_neg h05, hrun]
    rw [if_pos (by
      rw [show List.drop (1 + 2) [JS.fin (1/2 : ℝ), JS.fin (3/2 : ℝ), JS.fin (7/2 : ℝ)] =
        ([] : List JS) from rfl]
      rw [verifyGroups]
      trivial)]
  have hstep1 : consecutiveStep StartType.oddFirst 3
      ([JS.fin (1/2 : ℝ), JS.fin (3/2 : ℝ), JS.fin (7/2 : ℝ)].length) 0 fuel
      (sGet [JS.fin (1/2 : ℝ), JS.fin (3/2 : ℝ), JS.fin (7/2 : ℝ)]
        ([JS.fin (1/2 : ℝ), JS.fin (3/2 : ℝ), JS.fin (7/2 : ℝ)].length - 1)) = none := by
    unfold consecutiveStep
    dsimp only []
    rw [show JS.add (sGet [JS.fin (1/2 : ℝ), JS.fin (3/2 : ℝ), JS.fin (7/2 : ℝ)]
        ([JS.fin (1/2 : ℝ), JS.fin (3/2 : ℝ), JS.fin (7/2 : ℝ)].length - 1)) (JS.fin 1) =
      JS.fin (((4 : ℤ) : ℝ) + 1/2) by
        show JS.add (JS.fin (7/2 : ℝ)) (JS.fin 1) = JS.fin (((4 : ℤ) : ℝ) + 1/2)
        rw [JS.add_fin_fin, JS.fin_inj]
        push_cast
        norm_num]
    exact paritySearch_diverges_half _ (by norm_num) fuel 4
  unfold predictSequence
  rw [if_neg (by simp), detectComplexAlternatingPattern_short (by simp)]
  dsimp only []
  rw [detectAlternatingDifferencePattern_short (by simp)]
  dsimp only []
  rw [if_neg (checkSpecificPattern7108_short (by simp)),
    detectAlternatingPatternWithStep_short (by simp)]
  dsimp only []
  rw [if_neg harith, if_neg hgeomF, if_neg hfibF, if_neg hsqF, if_neg hcubeF]
  unfold predictStage2
  rw [checkAlternatingDifference_short (by simp)]
  dsimp only []
  rw [checkInterleaved_short (by simp)]
  dsimp only []
  rw [checkAlternatingSequence_short (by simp)]
  dsimp only []
  rw [hpow]
  dsimp only []
  rw [checkCyclicPattern_short (by simp)]
  dsimp only []
  rw [checkDifferencePatterns_short (by simp)]
  dsimp only []
  rw [checkRatioPatterns_short (by simp)]
  dsimp only []
  unfold predictStage3
  rw [if_neg (by rintro ⟨-, h4⟩; simp at h4)]
  rw [if_neg (by rintro ⟨h4, -⟩; simp at h4)]
  rw [if_neg (by rintro ⟨h6, -⟩; simp at h6)]
  rw [hconsec]
  dsimp only []
  rw [hstep1]

/-- C9: for every input list of length < 3, predictSequence returns empty
nextElements, ruleType unknown, confidence 0, and the N/A formula. -/
theorem C9_short_input (fuel : ℕ) (l : List JS) (h : l.length < 3) :
    predictSequence fuel l =
      some { nextElements := [], ruleType := RuleType.unknown,
             formula := FormulaT.na, confidence := 0 } := by
  unfold predictSequence
  rw [if_pos h]

/-- C9 witness: the too-short input `[5, 7]`. -/
theorem C9_short_input_witness :
    predictSequence 0 [JS.fin 5, JS.fin 7] =
      some { nextElements := [], ruleType := RuleType.unknown,
             formula := FormulaT.na, confidence := 0 } :=
  C9_short_input 0 [JS.fin 5, JS.fin 7] (by simp)

/-- C7: whenever predictSequence returns, nextElements has length exactly 3
for inputs of length ≥ 3 and length exactly 0 for inputs of length < 3. -/
theorem C7_length_invariant (fuel : ℕ) (l : List JS) (r : PredictionResult)
    (h : predictSequence fuel l = some r) :
    (3 ≤ l.length → r.nextElements.length = 3) ∧
    (l.length < 3 → r.nextElements.length = 0) := by
  rcases predict_some_inv fuel l r h with ⟨hlt, rfl⟩ | ⟨hge, hlen, -, -⟩
  · exact ⟨fun h3 => absurd h3 (by omega), fun _ => rfl⟩
  · exact ⟨fun _ => hlen, fun hlt => absurd hlt (by omega)⟩

/-- C7 witness: instantiated at the too-short input `[5, 7]`. -/
theorem C7_length_invariant_witness :
    (3 ≤ ([JS.fin 5, JS.fin 7] : List JS).length →
      (PredictionResult.mk [] RuleType.unknown FormulaT.na 0).nextElements.length = 3) ∧
    (([JS.fin 5, JS.fin 7] : List JS).length < 3 →
      (PredictionResult.mk [] RuleType.unknown FormulaT.na 0).nextElements.length = 0) :=
  C7_length_invariant 0 [JS.fin 5, JS.fin 7] _
    (by unfold predictSequence; rw [if_pos (by simp)])

/-- C10: whenever predictSequence returns on an input of length ≥ 3 the
confidence is at least 0.5, and a returned confidence of 0 happens exactly
for inputs of length < 3. -/
theorem C10_confidence_floor (fuel : ℕ) (l : List JS) (r : PredictionResult)
    (h : predictSequence fuel l = some r) :
    (3 ≤ l.length → (0.5 : ℝ) ≤ r.confidence) ∧ (r.confidence = 0 ↔ l.length < 3) := by
  rcases predict_some_inv fuel l r h with ⟨hlt, rfl⟩ | ⟨hge, -, hconf, -⟩
  · exact ⟨fun h3 => absurd h3 (by omega), ⟨fun _ => hlt, fun _ => rfl⟩⟩
  · refine ⟨fun _ => le_trans (by norm_num) hconf, ?_, fun hlt => absurd hlt (by omega)⟩
    intro h0
    rw [h0] at hconf
    norm_num at hconf

/-- C10 witness: instantiated at the too-short input `[5, 7]`. -/
theorem C10_confidence_floor_witness :
    (3 ≤ ([JS.fin 5, JS.fin 7] : List JS).length →
      (0.5 : ℝ) ≤ (PredictionResult.mk [] RuleType.unknown FormulaT.na 0).confidence) ∧
    ((PredictionResult.mk [] RuleType.unknown FormulaT.na 0).confidence = 0 ↔
      ([JS.fin 5, JS.fin 7] : List JS).length < 3) :=
  C10_confidence_floor 0 [JS.fin 5, JS.fin 7] _
    (by unfold predictSequence; rw [if_pos (by simp)])

/-- C6 (amended): no returned result ever carries the delay+constant
formula `a_(n+2) = a_n + c`; the detector's match condition compares
against `sequence[-1]` (NaN) and is therefore unsatisfiable, so the
delay+constant branch is dead code. -/
theorem C6_delay_unreachable (fuel : ℕ) (l : List JS) (r : PredictionResult)
    (h : predictSequence fuel l = some r) :
    ∀ c, r.formula ≠ FormulaT.delayF c := by
  rcases predict_some_inv fuel l r h with ⟨-, rfl⟩ | ⟨-, -, -, hf⟩
  · rintro c ⟨⟩
  · exact hf

/-- C6 counterexample: the claim that some input produces the
delay+constant family's result is false. -/
theorem C6_counterexample :
    ¬ ∃ (fuel : ℕ) (l : List JS) (r : PredictionResult) (c : JS),
        predictSequence fuel l = some r ∧ r.formula = FormulaT.delayF c := by
  rintro ⟨fuel, l, r, c, h, hf⟩
  rcases predict_some_inv fuel l r h with ⟨-, rfl⟩ | ⟨-, -, -, hforms⟩
  · cases hf
  · exact hforms c hf

/-- C6 witness: the amended theorem applied at the input `[5, 7]`. -/
theorem C6_delay_unreachable_witness :
    predictSequence 0 [JS.fin 5, JS.fin 7] =
      some ⟨[], RuleType.unknown, FormulaT.na, 0⟩ ∧
    (PredictionResult.mk [] RuleType.unknown FormulaT.na 0).formula ≠
      FormulaT.delayF (JS.fin 1) := by
  have hp : predictSequence 0 [JS.fin 5, JS.fin 7] =
      some ⟨[], RuleType.unknown, FormulaT.na, 0⟩ := by
    unfold predictSequence
    rw [if_pos (by simp)]
  exact ⟨hp, C6_delay_unreachable 0 _ _ hp (JS.fin 1)⟩

/-- C8: when the input has length at least 3 and no detector matches
(every guard along the if/else chain is false), the engine falls through
to the final fallback: it returns `last + d`, `last + 2d`, `last + 3d`
where `d` is the last difference, with rule type `unknown`, the
last-difference formula, and confidence exactly 0.5. -/
theorem C8_fallback (fuel : ℕ) (l : List JS) (h3 : 3 ≤ l.length)
    (hnd : noDetectorMatches l) :
    predictSequence fuel l =
      some { nextElements := [JS.add (sGet l (l.length - 1))
                 (JS.sub (sGet l (l.length - 1)) (sGet l (l.length - 2))),
               JS.add (sGet l (l.length - 1))
                 (JS.mul (JS.sub (sGet l (l.length - 1)) (sGet l (l.length - 2)))
                   (JS.fin 2)),
               JS.add (sGet l (l.length - 1))
                 (JS.mul (JS.sub (sGet l (l.length - 1)) (sGet l (l.length - 2)))
                   (JS.fin 3))],
             ruleType := RuleType.unknown,
             formula := FormulaT.lastDiffF
               (JS.sub (sGet l (l.length - 1)) (sGet l (l.length - 2))),
             confidence := 0.5 } := by
  obtain ⟨h1, h2, hp7108, h4, harith, hgeom, hfib, hsq, hcube,
    h10, h11, h12, h13, h14, h15, h16, hdelay, hoddEven, hhyb, hconsec⟩ := hnd
  unfold predictSequence
  rw [if_neg (by omega), h1]
  dsimp only []
  rw [h2]
  dsimp only []
  rw [if_neg hp7108, h4]
  dsimp only []
  rw [if_neg harith, if_neg hgeom, if_neg hfib, if_neg hsq, if_neg hcube]
  unfold predictStage2
  rw [h10]
  dsimp only []
  rw [h11]
  dsimp only []
  rw [h12]
  dsimp only []
  rw [h13]
  dsimp only []
  rw [h14]
  dsimp only []
  rw [h15]
  dsimp only []
  rw [h16]
  dsimp only []
  unfold predictStage3
  rw [if_neg hdelay, if_neg hoddEven, if_neg hhyb, hconsec]

/-- C8 witness: on `[2, 1/2, 9/2]` no detector matches (2 is even but 1/2
is not, so even the consecutive-parity detector rejects), and the theorem
yields the fallback `[17/2, 25/2, 33/2]` with confidence 0.5. -/
theorem C8_fallback_witness :
    predictSequence 0 [JS.fin (2 : ℝ), JS.fin (1/2 : ℝ), JS.fin (9/2 : ℝ)] =
      some { nextElements := [JS.fin (17/2 : ℝ), JS.fin (25/2 : ℝ), JS.fin (33/2 : ℝ)],
             ruleType := RuleType.unknown,
             formula := FormulaT.lastDiffF (JS.fin ((9/2 : ℝ) + -(1/2 : ℝ))),
             confidence := 0.5 } := by
  have h05 : ¬ JS.isEvenNum (JS.fin (1/2 : ℝ)) := by
    rintro ⟨n, hn⟩
    have hz : (1 : ℤ) = 4 * n := by exact_mod_cast (by linarith : (1:ℝ) = 4 * n)
    omega
  have h2even : JS.isEvenNum (JS.fin (2 : ℝ)) := ⟨1, by norm_num⟩
  have hd : diffsJS [JS.fin (2 : ℝ), JS.fin (1/2 : ℝ), JS.fin (9/2 : ℝ)] =
      [JS.fin ((1/2 : ℝ) + -2), JS.fin ((9/2 : ℝ) + -(1/2))] := by
    simp [diffsJS]
  have harith : ¬ checkArithmeticSequence
      [JS.fin (2 : ℝ), JS.fin (1/2 : ℝ), JS.fin (9/2 : ℝ)] := by
    rintro ⟨-, hall⟩
    have hx := hall (JS.fin ((9/2 : ℝ) + -(1/2))) (by rw [hd]; simp)
    rw [hd] at hx
    have h0 : sGet [JS.fin ((1/2 : ℝ) + -2), JS.fin ((9/2 : ℝ) + -(1/2))] 0 =
        JS.fin ((1/2 : ℝ) + -2) := rfl
    rw [h0] at hx
    simp only [JS.sub_fin_fin, JS.abs_fin, JS.lt_fin_fin, tol] at hx
    rw [show ((9/2 : ℝ) + -(1/2)) + -((1/2 : ℝ) + -2) = 11/2 by ring,
      abs_of_nonneg (by norm_num : (0:ℝ) ≤ 11/2)] at hx
    norm_num at hx
  have hrat : ratiosJS [JS.fin (2 : ℝ), JS.fin (1/2 : ℝ), JS.fin (9/2 : ℝ)] =
      [JS.fin ((1/2 : ℝ)/2), JS.fin ((9/2 : ℝ)/(1/2))] := by
    simp only [ratiosJS, List.drop, List.zipWith]
    rw [if_neg (by simp only [JS.fin_inj]; norm_num),
      if_neg (by simp only [JS.fin_inj]; norm_num)]
    rw [JS.div_fin_fin _ _ (by norm_num), JS.div_fin_fin _ _ (by norm_num)]
  have hgeomF : ¬ checkGeometricSequence
      [JS.fin (2 : ℝ), JS.fin (1/2 : ℝ), JS.fin (9/2 : ℝ)] := by
    rintro ⟨-, -, hall⟩
    have hx := (hall (JS.fin ((9/2 : ℝ)/(1/2))) (by rw [hrat]; simp)).2
    rw [hrat] at hx
    have h0 : sGet [JS.fin ((1/2 : ℝ)/2), JS.fin ((9/2 : ℝ)/(1/2))] 0 =
        JS.fin ((1/2 : ℝ)/2) := rfl
    rw [h0] at hx
    simp only [JS.sub_fin_fin, JS.abs_fin, JS.lt_fin_fin, tol] at hx
    rw [show ((9/2 : ℝ)/(1/2)) + -((1/2 : ℝ)/2) = 35/4 by norm_num,
      abs_of_nonneg (by norm_num : (0:ℝ) ≤ 35/4)] at hx
    norm_num at hx
  have hfibF : ¬ checkFibonacciSequence
      [JS.fin (2 : ℝ), JS.fin (1/2 : ℝ), JS.fin (9/2 : ℝ)] := by
    rintro ⟨-, hall⟩
    apply hall 2 (by norm_num) (by norm_num)
    show JS.lt (JS.fin tol)
      (JS.abs (JS.sub (JS.fin (9/2)) (JS.add (JS.fin (1/2)) (JS.fin 2))))
    simp only [JS.add_fin_fin, JS.sub_fin_fin, JS.abs_fin, JS.lt_fin_fin, tol]
    rw [show (9/2 : ℝ) + -((1/2 : ℝ) + 2) = 2 by ring,
      abs_of_nonneg (by norm_num : (0:ℝ) ≤ 2)]
    norm_num
  have hs1 : (141/100 : ℝ) < Real.sqrt 2 :=
    (Real.lt_sqrt (by norm_num)).mpr (by norm_num)
  have hs2 : Real.sqrt 2 < 142/100 :=
    (Real.sqrt_lt' (by norm_num)).mpr (by norm_num)
  have hsqF : ¬ checkSquareSequence
      [JS.fin (2 : ℝ), JS.fin (1/2 : ℝ), JS.fin (9/2 : ℝ)] := by
    rintro ⟨-, hall⟩
    apply hall 0 (by simp)
    show JS.lt (JS.fin tol)
      (JS.abs (JS.sub (JS.round (JS.sqrt (JS.fin 2))) (JS.sqrt (JS.fin 2))))
    rw [js_sqrt_nonneg_arg (by norm_num), round_fin_eq (n := 1) (by linarith) (by linarith)]
    simp only [JS.sub_fin_fin, JS.abs_fin, JS.lt_fin_fin, tol]
    rw [abs_of_nonpos (by push_cast; linarith)]
    push_cast
    linarith
  have hc1 : (5/4 : ℝ) < JS.realCbrt 2 :=
    lt_realCbrt (by norm_num) (by norm_num) (by norm_num)
  have hc2 : JS.realCbrt 2 < 13/10 :=
    realCbrt_lt (by norm_num) (by norm_num) (by norm_num)
  have hcubeF : ¬ checkCubeSequence
      [JS.fin (2 : ℝ), JS.fin (1/2 : ℝ), JS.fin (9/2 : ℝ)] := by
    rintro ⟨-, hall⟩
    apply hall 0 (by simp)
    show JS.lt (JS.fin tol)
      (JS.abs (JS.sub (JS.round (JS.cbrt (JS.fin 2))) (JS.cbrt (JS.fin 2))))
    show JS.lt (JS.fin tol)
      (JS.abs (JS.sub (JS.round (JS.fin (JS.realCbrt 2))) (JS.fin (JS.realCbrt 2))))
    rw [round_fin_eq (n := 1) (by linarith) (by linarith)]
    simp only [JS.sub_fin_fin, JS.abs_fin, JS.lt_fin_fin, tol]
    rw [abs_of_nonpos (by push_cast; linarith)]
    push_cast
    linarith
  have hpm : ∀ b, ¬ powMatchBase
      [JS.fin (2 : ℝ), JS.fin (1/2 : ℝ), JS.fin (9/2 : ℝ)] b := by
    intro b hb
    have hx := hb 0 (by simp)
    rw [show sGet [JS.fin (2 : ℝ), JS.fin (1/2 : ℝ), JS.fin (9/2 : ℝ)] 0 =
      JS.fin (2 : ℝ) from rfl, pow_zero] at hx
    simp only [JS.sub_fin_fin, JS.abs_fin, JS.lt_fin_fin, tol] at hx
    rw [show (2 : ℝ) + -1 = 1 by ring, abs_one] at hx
    norm_num at hx
  have hpow : checkPowerSequence
      [JS.fin (2 : ℝ), JS.fin (1/2 : ℝ), JS.fin (9/2 : ℝ)] = none := by
    unfold checkPowerSequence
    rw [if_pos (by simp)]
    exact powSearch_none hpm 2
  have hconsec : checkConsecutiveEvenOddPattern
      [JS.fin (2 : ℝ), JS.fin (1/2 : ℝ), JS.fin (9/2 : ℝ)] = none := by
    unfold checkConsecutiveEvenOddPattern
    dsimp only []
    rw [show sGet [JS.fin (2 : ℝ), JS.fin (1/2 : ℝ), JS.fin (9/2 : ℝ)] 0 =
        JS.fin (2 : ℝ) from rfl,
      show sGet [JS.fin (2 : ℝ), JS.fin (1/2 : ℝ), JS.fin (9/2 : ℝ)] 1 =
        JS.fin (1/2 : ℝ) from rfl]
    rw [if_pos (by simp), if_neg (fun hiff => h05 (hiff.mp h2even))]
  have hnd : noDetectorMatches
      [JS.fin (2 : ℝ), JS.fin (1/2 : ℝ), JS.fin (9/2 : ℝ)] :=
    ⟨detectComplexAlternatingPattern_short (by simp),
     detectAlternatingDifferencePattern_short (by simp),
     checkSpecificPattern7108_short (by simp),
     detectAlternatingPatternWithStep_short (by simp),
     harith, hgeomF, hfibF, hsqF, hcubeF,
     checkAlternatingDifference_short (by simp),
     checkInterleaved_short (by simp),
     checkAlternatingSequence_short (by simp),
     hpow,
     checkCyclicPattern_short (by simp),
     checkDifferencePatterns_short (by simp),
     checkRatioPatterns_short (by simp),
     (by rintro ⟨-, h4⟩; simp at h4),
     (by rintro ⟨h4, -⟩; simp at h4),
     (by rintro ⟨h6, -⟩; simp at h6),
     hconsec⟩
  have h := C8_fallback 0 [JS.fin (2 : ℝ), JS.fin (1/2 : ℝ), JS.fin (9/2 : ℝ)]
    (by simp) hnd
  rw [h]
  rw [show sGet [JS.fin (2 : ℝ), JS.fin (1/2 : ℝ), JS.fin (9/2 : ℝ)]
      ([JS.fin (2 : ℝ), JS.fin (1/2 : ℝ), JS.fin (9/2 : ℝ)].length - 1) =
      JS.fin (9/2 : ℝ) from rfl,
    show sGet [JS.fin (2 : ℝ), JS.fin (1/2 : ℝ), JS.fin (9/2 : ℝ)]
      ([JS.fin (2 : ℝ), JS.fin (1/2 : ℝ), JS.fin (9/2 : ℝ)].length - 2) =
      JS.fin (1/2 : ℝ) from rfl]
  norm_num

end SeqPredict
